import Mathlib

/-!
Verification development for the authoritative snake-game simulation engine
(`src/lib/game/engine.ts`, first engine variant, together with
`src/lib/game/models.ts`).

Shallow embedding conventions:
* JavaScript numbers are modelled as `ℚ` (coordinates, speeds, times) or `ℕ`
  (scores, kill counts, boost meter, food values - all code paths keep these
  integral and non-negative).
* `Math.random()` is modelled as an explicit stream `rng : ℕ → ℚ` together
  with a cursor `rix`; each call to the source's `Math.random()` reads the
  stream once and advances the cursor.
* `Date.now()` is modelled as an explicit `now : ℚ` parameter of the
  operations that read the clock.
* `Math.sqrt` appears in the source only (a) inside comparisons
  `distance(p, q) < c` - embedded exactly as the equivalent squared
  comparison, since `Real.sqrt` is strictly monotone on non-negatives -
  and (b) in `normalizeVector` / cosmetic radii, where it is modelled by an
  abstract function `sqrtFn : ℚ → ℚ` stored in the engine state.
* `uuidv4()` is modelled as a counter-backed fresh-name supply `nextId`.
* Event emission: the engine embedding appends emitted events (constructor =
  the exact object literal of each `emitEvent` call site) to an `events` log.
  Delivery of events to listeners (the body of `emitEvent`, whose `try/catch`
  is the subject of the listener-isolation claim) is modelled separately by
  `emitEventAux` over listeners that may fail (`Except`).
* The `ticks` field is a ghost counter (not in the source) incremented
  exactly when `update` passes its tick-rate gate; it only instruments the
  statement of the tick-gating property.
-/

namespace SnakeGame

/-- 2D point, `models.ts` `Point`. -/
structure Point where
  x : ℚ
  y : ℚ
deriving DecidableEq

/-- `models.ts` `ActivePowerUp`: a timed power-up effect on a snake. -/
structure ActivePowerUp where
  ptype : String
  endTime : ℚ
deriving DecidableEq

/-- `models.ts` `Snake`.  `createdAt` models the `(snake as any).createdAt`
field the engine's `addPlayer` attaches (0 = unset, matching JS falsiness of
a missing/zero value). -/
structure Snake where
  id : String
  name : String
  color : String
  segments : List Point
  direction : Point
  speed : ℚ
  baseSpeed : ℚ
  score : ℕ
  alive : Bool
  pattern : String
  secondaryColor : String
  glowIntensity : ℚ
  scale : ℚ
  boostMeter : ℕ
  isBoosting : Bool
  boostEndTime : ℚ
  kills : ℕ
  lastKill : Option String
  activePowerUps : List ActivePowerUp
  createdAt : ℚ
deriving DecidableEq

/-- `models.ts` `Food`. -/
structure Food where
  id : String
  position : Point
  value : ℕ
  color : String
  radius : ℚ
  glowIntensity : ℚ
  pulseRate : ℚ
deriving DecidableEq

/-- Leaderboard entry `{id, name, score}` built by `updateLeaderboard`. -/
structure LBEntry where
  id : String
  name : String
  score : ℕ
deriving DecidableEq

/-- `models.ts` `PlayerInput`. -/
structure PlayerInput where
  id : String
  direction : Point
deriving DecidableEq

/-- The engine's event-type union (`GameEventType` in `engine.ts`). -/
inductive GameEventType where
  | foodCollect
  | specialFoodCollect
  | playerDeath
  | playerDeathBorder
  | boostStart
  | boostEnd
  | playerKill
deriving DecidableEq

/-- One emitted event, with a constructor per `emitEvent` call site carrying
exactly the fields of that site's data object.  `borderDeath` is the
`updateSnakes` border-danger site (payload `{ playerId }` only);
`borderDeathStats` is the `killSnake` site with `cause === 'border'`. -/
inductive GEvent where
  | foodCollect (playerId : String) (foodValue boostMeter : ℕ)
  | specialFoodCollect (playerId : String) (foodValue boostMeter : ℕ)
  | borderDeath (playerId : String)
  | borderDeathStats (playerId : String) (position : ℕ) (score : ℕ) (playTime : ℤ)
  | playerDeath (playerId : String) (killedBy : Option String) (position : ℕ)
      (score : ℕ) (playTime : ℤ)
  | boostStart (playerId : String)
  | boostEnd (playerId : String)
  | playerKill (killerId killerName victimId victimName : String) (score : ℕ)
deriving DecidableEq

/-- Wire event type of an emitted event (the string passed to `emitEvent`). -/
def GEvent.etype : GEvent → GameEventType
  | .foodCollect .. => .foodCollect
  | .specialFoodCollect .. => .specialFoodCollect
  | .borderDeath .. => .playerDeathBorder
  | .borderDeathStats .. => .playerDeathBorder
  | .playerDeath .. => .playerDeath
  | .boostStart .. => .boostStart
  | .boostEnd .. => .boostEnd
  | .playerKill .. => .playerKill

/-- The `score` field carried by an event's data object, if present. -/
def GEvent.scoreOf : GEvent → Option ℕ
  | .borderDeathStats _ _ s _ => some s
  | .playerDeath _ _ _ s _ => some s
  | .playerKill _ _ _ _ s => some s
  | _ => none

/-- Full engine state: the `GameState` fields plus the `GameEngine` instance
fields that the claims touch (`lastTick`, `foodSpawnCounter`), the event log,
and the modelled effect sources (rng stream/cursor, id supply, abstract sqrt,
ghost tick counter). -/
structure Eng where
  width : ℚ
  height : ℚ
  snakes : List Snake
  foods : List Food
  leaderboard : List LBEntry
  lastTick : ℚ
  foodSpawnCounter : ℚ
  events : List GEvent
  rng : ℕ → ℚ
  rix : ℕ
  nextId : ℕ
  sqrtFn : ℚ → ℚ
  ticks : ℕ

/-- Constants from the top of `engine.ts`. -/
def FOOD_COUNT : ℕ := 500

/-- `TICK_RATE = 1000 / 60`. -/
def tickRate : ℚ := 1000 / 60

/-- `FOOD_SPAWN_INTERVAL = 50`. -/
def foodSpawnInterval : ℚ := 50

/-- `BORDER_DANGER_ZONE = 30`. -/
def borderDangerZone : ℚ := 30

/-- Grid cell size (`this.cellSize = 100`). -/
def cellSize : ℚ := 100

/-- One `Math.random()` call: read the stream at the cursor and advance. -/
def rand (st : Eng) : ℚ × Eng :=
  (st.rng st.rix, { st with rix := st.rix + 1 })

/-- One `uuidv4()` call, modelled as a fresh counter-backed name. -/
def freshId (st : Eng) : String × Eng :=
  ("uuid-" ++ toString st.nextId, { st with nextId := st.nextId + 1 })

/-- `models.ts` `distance(p1, p2) < d`, embedded as the equivalent squared
comparison (`Math.sqrt` is strictly monotone on non-negatives, so
`sqrt s < d ↔ s < d²` for the non-negative arguments arising here). -/
def distLt (a b : Point) (d : ℚ) : Bool :=
  decide ((b.x - a.x) * (b.x - a.x) + (b.y - a.y) * (b.y - a.y) < d * d)

/-- `models.ts` `normalizeVector`: the length is `sqrt (x²+y²)`, and the
zero-length check guards the division. -/
def normalizeVector (sq : ℚ → ℚ) (p : Point) : Point :=
  let len := sq (p.x * p.x + p.y * p.y)
  if len = 0 then ⟨0, 0⟩ else ⟨p.x / len, p.y / len⟩

/-- `engine.ts` `getGridCell` (returns `(row, col)`). -/
def getGridCell (x y cs w h : ℚ) : ℤ × ℤ :=
  let safeX := max 0 (min x (w - 1))
  let safeY := max 0 (min y (h - 1))
  (Rat.floor (safeY / cs), Rat.floor (safeX / cs))

/-- Spatial-grid entry kinds (`'snake' | 'food' | 'specialFood'`). -/
inductive GKind where
  | snake
  | food
  | specialFood
deriving DecidableEq

/-- Spatial-grid entry `{ type, index }`. -/
structure GItem where
  kind : GKind
  index : ℕ
deriving DecidableEq

/-- The spatial grid (`Map<string, Array<...>>`), as a total function with
`[]` for absent cells (matching the `undefined` → skip behaviour). -/
def Grid := ℤ × ℤ → List GItem

/-- Empty grid (`spatialGrid.clear()`). -/
def emptyGrid : Grid := fun _ => []

/-- Push an item onto a cell's array. -/
def gridAdd (g : Grid) (k : ℤ × ℤ) (it : GItem) : Grid :=
  fun k2 => if k2 = k then g k ++ [it] else g k2

/-- Colour palette of `createSnake`. -/
def snakeColors : List String :=
  ["#FF5252", "#FF4081", "#E040FB", "#7C4DFF",
   "#536DFE", "#448AFF", "#40C4FF", "#18FFFF",
   "#64FFDA", "#69F0AE", "#B2FF59", "#EEFF41",
   "#FFFF00", "#FFD740", "#FFAB40", "#FF6E40",
   "#8A2BE2", "#9370DB", "#BA55D3", "#DA70D6",
   "#00FFFF", "#00BFFF", "#1E90FF", "#4169E1"]

/-- Secondary colours of `createSnake`. -/
def snakeSecondaryColors : List String :=
  ["#FFFFFF", "#FFD700", "#FF8C00", "#FF1493",
   "#9400D3", "#4B0082", "#0000FF", "#00FF00"]

/-- Pattern names of `createSnake`. -/
def snakePatterns : List String := ["solid", "striped", "gradient", "glowing"]

/-- Food colour palette of `createFood`. -/
def foodColors : List String :=
  ["#FFC107", "#FF9800", "#FF5722", "#F44336",
   "#9C27B0", "#673AB7", "#3F51B5", "#2196F3",
   "#00BCD4", "#009688", "#4CAF50", "#8BC34A",
   "#CDDC39", "#FFEB3B", "#FFC107", "#FF9800",
   "#00FFFF", "#1E90FF", "#7FFFD4", "#FF1493"]

/-- `Math.floor(r * n)` as a natural index (the source's random palette
indexing; `r ∈ [0,1)` in reality, clamped at 0 below by `toNat`). -/
def randIndex (r : ℚ) (n : ℕ) : ℕ :=
  (Rat.floor (r * n)).toNat

/-- `models.ts` `createSnake`, consuming the rng stream in source order
(colour, secondary colour, pattern, glow intensity, scale). -/
def createSnake (id name : String) (position : Point) (st : Eng) : Snake × Eng :=
  let (rColor, st1) := rand st
  let (rSecondary, st2) := rand st1
  let (rPattern, st3) := rand st2
  let (rGlow, st4) := rand st3
  let (rScale, st5) := rand st4
  let segments := (List.range 10).map (fun (i : ℕ) => Point.mk (position.x - (i : ℚ)) position.y)
  let snake : Snake :=
    { id := id
      name := name
      color := snakeColors.getD (randIndex rColor snakeColors.length) ""
      segments := segments
      direction := ⟨1, 0⟩
      speed := 3
      baseSpeed := 3
      score := 0
      alive := true
      pattern := snakePatterns.getD (randIndex rPattern snakePatterns.length) ""
      secondaryColor := snakeSecondaryColors.getD
        (randIndex rSecondary snakeSecondaryColors.length) ""
      glowIntensity := rGlow * (1 / 2) + 1 / 2
      scale := rScale * (1 / 5) + 9 / 10
      boostMeter := 0
      isBoosting := false
      boostEndTime := 0
      kills := 0
      lastKill := none
      activePowerUps := []
      createdAt := 0 }
  (snake, st5)

/-- `models.ts` `createFood`, consuming the rng stream in source order
(value, base radius, colour, glow, pulse).  The radius is
`baseRadius * Math.sqrt(value)` via the abstract `sqrtFn`. -/
def createFood (id : String) (position : Point) (st : Eng) : Food × Eng :=
  let (rValue, st1) := rand st
  let (rRadius, st2) := rand st1
  let (rColor, st3) := rand st2
  let (rGlow, st4) := rand st3
  let (rPulse, st5) := rand st4
  let value := (Rat.floor (rValue * 3)).toNat + 1
  let baseRadius : ℚ := Rat.floor (rRadius * 3) + 3
  let food : Food :=
    { id := id
      position := position
      value := value
      color := foodColors.getD (randIndex rColor foodColors.length) ""
      radius := baseRadius * st.sqrtFn value
      glowIntensity := rGlow * (7 / 10) + 3 / 10
      pulseRate := rPulse * 2 + 1 }
  (food, st5)

/-- `engine.ts` `spawnFoodAt(position, value)`. -/
def spawnFoodAt (position : Point) (value : ℕ) (st : Eng) : Eng :=
  let (id, st1) := freshId st
  let (food, st2) := createFood id position st1
  let food2 := { food with value := value, radius := 3 + (value : ℚ) }
  { st2 with foods := st2.foods ++ [food2] }

/-- `engine.ts` `spawnFood()`: random position, 5% special chance
(`0.05` embedded as `1/20`; the tiny binary-float deviation of the literal
`0.05` cannot change any claim here). -/
def spawnFood (st : Eng) : Eng :=
  let (rx, st1) := rand st
  let (ry, st2) := rand st1
  let position : Point := ⟨rx * st.width, ry * st.height⟩
  let (rSpecial, st3) := rand st2
  let isSpecial := rSpecial < (1 / 20 : ℚ)
  let (id, st4) := freshId st3
  let (food, st5) := createFood id position st4
  let food2 :=
    if isSpecial then
      { food with value := food.value * 3, radius := food.radius * (3 / 2),
                  glowIntensity := 1, pulseRate := 3 }
    else food
  { st5 with foods := st5.foods ++ [food2] }

/-- Replace the element at index `i` by `f` of it (in-place mutation of the
`i`-th array element). -/
def listModify (f : α → α) : ℕ → List α → List α
  | _, [] => []
  | 0, a :: as => f a :: as
  | n + 1, a :: as => a :: listModify f n as

/-- Mutate the snake at index `i`. -/
def updSnakeAt (i : ℕ) (f : Snake → Snake) (st : Eng) : Eng :=
  { st with snakes := listModify f i st.snakes }

/-- `snake.alive = false`. -/
def deadUpd (s : Snake) : Snake := { s with alive := false }

/-- Eating food of value `v`: `score += v`, append `v` copies of the tail
segment, `boostMeter = min(100, boostMeter + amt)` (`amt` = 5 ordinary / 25
special). -/
def eatUpd (v amt : ℕ) (s : Snake) : Snake :=
  { s with
    score := s.score + v
    segments := s.segments ++ List.replicate v (s.segments.getLastD ⟨0, 0⟩)
    boostMeter := min 100 (s.boostMeter + amt) }

/-- Kill credit: `score += n; kills += 1`. -/
def killCreditUpd (n : ℕ) (s : Snake) : Snake :=
  { s with score := s.score + n, kills := s.kills + 1 }

/-- Boost expiry: `isBoosting = false; speed = baseSpeed; boostMeter = 0`. -/
def boostClearUpd (s : Snake) : Snake :=
  { s with isBoosting := false, speed := s.baseSpeed, boostMeter := 0 }

/-- Boost activation: `isBoosting = true; speed = baseSpeed * 2;
boostEndTime = now + 5000`. -/
def boostSetUpd (now : ℚ) (s : Snake) : Snake :=
  { s with isBoosting := true, speed := s.baseSpeed * 2, boostEndTime := now + 5000 }

/-- Movement: `segments.unshift(newHead); segments.pop()`. -/
def moveUpd (p : Point) (s : Snake) : Snake :=
  { s with segments := p :: s.segments.dropLast }

/-- `handlePlayerInput` body: set `baseSpeed`, recompute `speed` from the
boost flag, set `direction`. -/
def inputUpd (b : ℚ) (d : Point) (s : Snake) : Snake :=
  { s with baseSpeed := b, speed := if s.isBoosting then b * 2 else b, direction := d }

/-- Stable insertion step for descending sort by `key`: skip over strictly
greater keys, insert before the first key `≤` ours (so earlier input elements
stay first among ties, matching ES2019's stable `Array.prototype.sort` with
comparator `(a, b) => b.score - a.score`). -/
def insertDesc (key : α → ℕ) (x : α) : List α → List α
  | [] => [x]
  | y :: ys => if key x < key y then y :: insertDesc key x ys else x :: y :: ys

/-- Stable descending sort by `key`. -/
def sortDesc (key : α → ℕ) : List α → List α
  | [] => []
  | x :: xs => insertDesc key x (sortDesc key xs)

/-- Leaderboard projection `{ id, name, score }`. -/
def lbProj (s : Snake) : LBEntry := ⟨s.id, s.name, s.score⟩

/-- The source's leaderboard computation: ALL snakes (the source does not
filter on `alive`), sorted by score descending, top 10. -/
def leaderboardOf (snakes : List Snake) : List LBEntry :=
  (sortDesc LBEntry.score (snakes.map lbProj)).take 10

/-- `engine.ts` `updateLeaderboard`. -/
def updateLeaderboard (st : Eng) : Eng :=
  { st with leaderboard := leaderboardOf st.snakes }

/-- `engine.ts` `getPlayerRank`: 1-based rank among ALL snakes sorted by
score descending, 0 if absent. -/
def getPlayerRank (playerId : String) (st : Eng) : ℕ :=
  match (sortDesc Snake.score st.snakes).findIdx? (fun s => s.id == playerId) with
  | some i => i + 1
  | none => 0

/-- One body-segment food drop of `dropFoodFromSnake`: random offsets and
value (3 rng reads), then `spawnFoodAt`. -/
def dropStep (s : Snake) (acc : Eng) (idx : ℕ) : Eng :=
  let seg := s.segments.getD idx ⟨0, 0⟩
  let (r1, acc1) := rand acc
  let (r2, acc2) := rand acc1
  let (r3, acc3) := rand acc2
  let offsetX := (r1 - 1 / 2) * 20
  let offsetY := (r2 - 1 / 2) * 20
  let value := (Rat.floor (r3 * 2)).toNat + 1
  spawnFoodAt ⟨seg.x + offsetX, seg.y + offsetY⟩ value acc3

/-- `engine.ts` `dropFoodFromSnake`: `ceil(len/5)` evenly spread body drops
(random offsets/values: 3 rng reads per drop) plus one value-3 food at the
head when the body is non-empty. -/
def dropFoodFromSnake (s : Snake) (st : Eng) : Eng :=
  let len := s.segments.length
  let foodCount := (Rat.ceil ((len : ℚ) / 5)).toNat
  let idxs := (List.range foodCount).map
    (fun (i : ℕ) => (Rat.floor ((i : ℚ) * ((len : ℚ) / (foodCount : ℚ)))).toNat)
  let st1 := idxs.foldl (dropStep s) st
  if 0 < len then
    let head := s.segments.headD ⟨0, 0⟩
    spawnFoodAt ⟨head.x, head.y⟩ 3 st1
  else st1

/-- `engine.ts` `killSnake(snakeId, killedById, cause)`.  The source looks the
snake up by id and returns silently if missing or already dead; `playTime`
uses the `createdAt` stamp with JS falsiness (0 ⇒ fall back to `Date.now()`).
`Math.floor((now - start)/1000)` is exact integer arithmetic here. -/
def killSnake (now : ℚ) (snakeId : String) (killedById : Option String)
    (cause : String) (st : Eng) : Eng :=
  match st.snakes.findIdx? (fun s => s.id == snakeId) with
  | none => st
  | some i =>
    match st.snakes.get? i with
    | none => st
    | some s =>
      if s.alive then
        let st1 := dropFoodFromSnake s st
        let st2 := updSnakeAt i deadUpd st1
        let startTime := if s.createdAt ≠ 0 then s.createdAt else now
        let playTime := Rat.floor ((now - startTime) / 1000)
        let rank := getPlayerRank snakeId st2
        if cause = "border" then
          { st2 with events := st2.events ++ [GEvent.borderDeathStats snakeId rank s.score playTime] }
        else
          { st2 with events := st2.events ++ [GEvent.playerDeath snakeId killedById rank s.score playTime] }
      else st

/-- `engine.ts` `handleFoodCollision(snake, foodIndex)`: guard on the food
still existing, eat (+5 boost meter), emit `foodCollect` with the updated
meter, then remove the food by index
(`foods.filter((_, index) => index !== foodIndex)` = `eraseIdx`). -/
def handleFoodCollision (i fi : ℕ) (st : Eng) : Eng :=
  match st.foods.get? fi with
  | none => st
  | some food =>
    let st1 := updSnakeAt i (eatUpd food.value 5) st
    let ev := match st1.snakes.get? i with
      | some s2 => [GEvent.foodCollect s2.id food.value s2.boostMeter]
      | none => []
    { st1 with events := st1.events ++ ev, foods := st1.foods.eraseIdx fi }

/-- `engine.ts` `handleSpecialFoodCollision`: additionally guards
`food.value <= 2` ("only special food has value > 2"), +25 boost meter,
emits `specialFoodCollect`. -/
def handleSpecialFoodCollision (i fi : ℕ) (st : Eng) : Eng :=
  match st.foods.get? fi with
  | none => st
  | some food =>
    if food.value ≤ 2 then st
    else
      let st1 := updSnakeAt i (eatUpd food.value 25) st
      let ev := match st1.snakes.get? i with
        | some s2 => [GEvent.specialFoodCollect s2.id food.value s2.boostMeter]
        | none => []
      { st1 with events := st1.events ++ ev, foods := st1.foods.eraseIdx fi }

/-- `engine.ts` `updateSpatialGrid`: alive snakes' segments, then ALL foods
as `'food'` entries, then - the loop whose comment says "Add special food to
the grid" but which again iterates `this.state.foods` - ALL foods once more
as `'specialFood'` entries. -/
def buildGrid (st : Eng) : Grid :=
  let g1 := st.snakes.enum.foldl
    (fun g p =>
      if p.2.alive then
        p.2.segments.foldl
          (fun g2 seg =>
            gridAdd g2 (getGridCell seg.x seg.y cellSize st.width st.height)
              ⟨GKind.snake, p.1⟩) g
      else g)
    emptyGrid
  let g2 := st.foods.enum.foldl
    (fun g p =>
      gridAdd g (getGridCell p.2.position.x p.2.position.y cellSize st.width st.height)
        ⟨GKind.food, p.1⟩)
    g1
  st.foods.enum.foldl
    (fun g p =>
      gridAdd g (getGridCell p.2.position.x p.2.position.y cellSize st.width st.height)
        ⟨GKind.specialFood, p.1⟩)
    g2

/-- Processing one grid item during the food scan of `checkCollisions`:
`'food'` entries go to the ordinary handler, `'specialFood'` entries to the
special handler, both behind a fresh existence + `distance < 20` guard. -/
def foodScanItem (i : ℕ) (head : Point) (it : GItem) (st : Eng) : Eng :=
  match it.kind with
  | GKind.snake => st
  | GKind.food =>
    match st.foods.get? it.index with
    | some food => if distLt head food.position 20 then handleFoodCollision i it.index st else st
    | none => st
  | GKind.specialFood =>
    match st.foods.get? it.index with
    | some food =>
      if distLt head food.position 20 then handleSpecialFoodCollision i it.index st else st
    | none => st

/-- The 3×3 cell-offset scan order of `checkCollisions` (row offset outer,
column offset inner). -/
def neighborOffsets : List (ℤ × ℤ) :=
  [(-1, -1), (-1, 0), (-1, 1), (0, -1), (0, 0), (0, 1), (1, -1), (1, 0), (1, 1)]

/-- Food-collision scan of `checkCollisions` for the snake at index `i`. -/
def foodPhase (g : Grid) (i : ℕ) (head : Point) (st : Eng) : Eng :=
  let hc := getGridCell head.x head.y cellSize st.width st.height
  neighborOffsets.foldl
    (fun acc off =>
      (g (hc.1 + off.1, hc.2 + off.2)).foldl
        (fun acc2 it => foodScanItem i head it acc2) acc)
    st

/-- Inner loop of the snake-vs-snake check: for each segment index `j` of the
other snake, on a `distance < 20` hit run the source's three branches.  The
returned `Bool` is `true` when the source `return`s out of this snake's
processing.  NOTE (faithful to the source): in the "this snake is strictly
longer" head-to-head branch the source calls `killSnake(snake.id, ...)`,
killing the LONGER snake while crediting it with the kill. -/
def segsLoop (now : ℚ) (i oIdx : ℕ) (head : Point) : List ℕ → Eng → Eng × Bool
  | [], st => (st, false)
  | j :: rest, st =>
    match st.snakes.get? i, st.snakes.get? oIdx with
    | some s, some o =>
      match o.segments.get? j with
      | some seg =>
        if distLt head seg 20 then
          if j = 0 ∧ o.segments.length + 2 < s.segments.length then
            let st1 := killSnake now s.id (some o.id) "" st
            let oScore := ((st1.snakes.get? oIdx).map Snake.score).getD 0
            let st2 := updSnakeAt i (killCreditUpd (oScore / 2)) st1
            let sScore := ((st2.snakes.get? i).map Snake.score).getD 0
            let st3 := { st2 with
              events := st2.events ++ [GEvent.playerKill s.id s.name o.id o.name sScore] }
            segsLoop now i oIdx head rest st3
          else if j = 0 ∧ s.segments.length + 2 < o.segments.length then
            let st1 := killSnake now s.id (some o.id) "" st
            let sScore := ((st1.snakes.get? i).map Snake.score).getD 0
            let st2 := updSnakeAt oIdx (killCreditUpd (sScore / 2)) st1
            let oScore := ((st2.snakes.get? oIdx).map Snake.score).getD 0
            ({ st2 with
              events := st2.events ++ [GEvent.playerKill o.id o.name s.id s.name oScore] }, true)
          else if 0 < j ∨ o.segments.length ≤ s.segments.length + 2 then
            let st1 := killSnake now s.id (some o.id) "" st
            let sScore := ((st1.snakes.get? i).map Snake.score).getD 0
            let st2 := updSnakeAt oIdx (killCreditUpd (sScore / 5)) st1
            let oScore := ((st2.snakes.get? oIdx).map Snake.score).getD 0
            ({ st2 with
              events := st2.events ++ [GEvent.playerKill o.id o.name s.id s.name oScore] }, true)
          else
            segsLoop now i oIdx head rest st
        else segsLoop now i oIdx head rest st
      | none => segsLoop now i oIdx head rest st
    | _, _ => segsLoop now i oIdx head rest st

/-- Outer loop of the snake-vs-snake check over other snake indices
(skip self, skip dead). -/
def othersLoop (now : ℚ) (i : ℕ) (head : Point) : List ℕ → Eng → Eng × Bool
  | [], st => (st, false)
  | oIdx :: rest, st =>
    if oIdx = i then othersLoop now i head rest st
    else
      match st.snakes.get? oIdx with
      | some o =>
        if o.alive then
          match segsLoop now i oIdx head (List.range o.segments.length) st with
          | (st1, true) => (st1, true)
          | (st1, false) => othersLoop now i head rest st1
        else othersLoop now i head rest st
      | none => othersLoop now i head rest st

/-- Self-collision loop (`j = 3 .. len-1`, `distance < 15`). -/
def selfLoop (now : ℚ) (i : ℕ) (head : Point) : List ℕ → Eng → Eng × Bool
  | [], st => (st, false)
  | j :: rest, st =>
    match st.snakes.get? i with
    | some s =>
      match s.segments.get? j with
      | some seg =>
        if distLt head seg 15 then (killSnake now s.id none "" st, true)
        else selfLoop now i head rest st
      | none => selfLoop now i head rest st
    | none => selfLoop now i head rest st

/-- World-boundary check at the end of one snake's `checkCollisions`
processing (`head.x < 0 || head.x >= worldWidth || ...`). -/
def borderCheck (now : ℚ) (s : Snake) (head : Point) (st : Eng) : Eng :=
  if head.x < 0 ∨ st.width ≤ head.x ∨ head.y < 0 ∨ st.height ≤ head.y then
    killSnake now s.id none "border" st
  else st

/-- Continuation after the self-collision loop: an early `return` stops,
otherwise the world-boundary check runs. -/
def afterSelf (now : ℚ) (s : Snake) (head : Point) (r : Eng × Bool) : Eng :=
  match r with
  | (st3, true) => st3
  | (st3, false) => borderCheck now s head st3

/-- Continuation after the snake-vs-snake loop: an early `return` stops,
otherwise the self-collision check (only when more than 4 segments,
re-reading the possibly grown length) and the boundary check run. -/
def afterOthers (now : ℚ) (i : ℕ) (s : Snake) (head : Point) (r : Eng × Bool) : Eng :=
  match r with
  | (st2, true) => st2
  | (st2, false) =>
    let lenNow := ((st2.snakes.get? i).map (fun t => t.segments.length)).getD 0
    if 4 < lenNow then
      afterSelf now s head (selfLoop now i head (List.range' 3 (lenNow - 3)) st2)
    else borderCheck now s head st2

/-- `checkCollisions` body for one snake index: food scan, snake-vs-snake
loop, self-collision check, world-boundary check. -/
def collideSnakeStep (now : ℚ) (g : Grid) (st : Eng) (i : ℕ) : Eng :=
  match st.snakes.get? i with
  | none => st
  | some s =>
    if s.alive then
      let head := s.segments.headD ⟨0, 0⟩
      let st1 := foodPhase g i head st
      afterOthers now i s head (othersLoop now i head (List.range st1.snakes.length) st1)
    else st

/-- `engine.ts` `checkCollisions`: rebuild the spatial grid, then process
every snake index in order. -/
def checkCollisions (now : ℚ) (st : Eng) : Eng :=
  let g := buildGrid st
  (List.range st.snakes.length).foldl (fun acc i => collideSnakeStep now g acc i) st

/-- New head position: `head + direction * speed`. -/
def newHeadOf (s : Snake) : Point :=
  let h := s.segments.headD ⟨0, 0⟩
  ⟨h.x + s.direction.x * s.speed, h.y + s.direction.y * s.speed⟩

/-- Border danger-zone test of `updateSnakes`. -/
def inDangerZone (p : Point) (w h : ℚ) : Bool :=
  decide (p.x < borderDangerZone ∨ w - borderDangerZone < p.x ∨
          p.y < borderDangerZone ∨ h - borderDangerZone < p.y)

/-- One snake's movement step in `updateSnakes`: border-danger death (drop
food, mark dead, emit `playerDeathBorder` with `{ playerId }` only, skip
movement) or advance head and pop tail. -/
def moveSnakeStep (st : Eng) (i : ℕ) : Eng :=
  match st.snakes.get? i with
  | none => st
  | some s =>
    if s.alive then
      let newHead := newHeadOf s
      if inDangerZone newHead st.width st.height then
        let st1 := dropFoodFromSnake s st
        let st2 := updSnakeAt i deadUpd st1
        { st2 with events := st2.events ++ [GEvent.borderDeath s.id] }
      else updSnakeAt i (moveUpd newHead) st
    else st

/-- `engine.ts` `updateSnakes` (its `deltaTime` parameter is unused in the
source body). -/
def updateSnakes (st : Eng) : Eng :=
  (List.range st.snakes.length).foldl moveSnakeStep st

/-- One snake's boost-expiry step in `checkBoostStatus`. -/
def checkBoostStep (now : ℚ) (st : Eng) (i : ℕ) : Eng :=
  match st.snakes.get? i with
  | none => st
  | some s =>
    if s.isBoosting ∧ s.boostEndTime ≤ now then
      let st1 := updSnakeAt i boostClearUpd st
      { st1 with events := st1.events ++ [GEvent.boostEnd s.id] }
    else st

/-- `engine.ts` `checkBoostStatus`. -/
def checkBoostStatus (now : ℚ) (st : Eng) : Eng :=
  (List.range st.snakes.length).foldl (checkBoostStep now) st

/-- The periodic food-spawn block of `update`: bump `foodSpawnCounter` by
`deltaTime`; at the spawn interval reset it and spawn one food if below the
population cap. -/
def spawnPhase (dt : ℚ) (st : Eng) : Eng :=
  let st5 := { st with foodSpawnCounter := st.foodSpawnCounter + dt }
  if foodSpawnInterval ≤ st5.foodSpawnCounter then
    let s := { st5 with foodSpawnCounter := 0 }
    if s.foods.length < FOOD_COUNT then spawnFood s else s
  else st5

/-- One whole tick of `update` past the gate: boost expiry, movement,
collisions, periodic food spawn, leaderboard. -/
def tickBody (dt now : ℚ) (st : Eng) : Eng :=
  updateLeaderboard (spawnPhase dt (checkCollisions now (updateSnakes (checkBoostStatus now st))))

/-- `engine.ts` `update(deltaTime)`: accumulate into `lastTick`; below the
tick rate return immediately, otherwise reset the accumulator to 0 and run
one tick.  `ticks` is the ghost tick counter. -/
def update (dt now : ℚ) (st : Eng) : Eng :=
  let st0 := { st with lastTick := st.lastTick + dt }
  if st0.lastTick < tickRate then st0
  else tickBody dt now { st0 with lastTick := 0, ticks := st0.ticks + 1 }

/-- `engine.ts` `handlePlayerInput`: find the snake by id; if alive,
normalize the direction, derive the base speed from the input magnitude
(`2 + min(1, |dir|/100) * 2`), reapply the boost multiplier, set the
direction.  Unknown or dead ids fall through silently. -/
def handlePlayerInput (input : PlayerInput) (st : Eng) : Eng :=
  match st.snakes.findIdx? (fun s => s.id == input.id) with
  | none => st
  | some i =>
    match st.snakes.get? i with
    | none => st
    | some s =>
      if s.alive then
        let nd := normalizeVector st.sqrtFn input.direction
        let inputMagnitude := st.sqrtFn
          (input.direction.x * input.direction.x + input.direction.y * input.direction.y)
        let speedFactor := min 1 (inputMagnitude / 100)
        let base := 2 + speedFactor * 2
        updSnakeAt i (inputUpd base nd) st
      else st

/-- `engine.ts` `activateBoost(playerId)`: refuse (returning `false`, state
untouched) when the snake is missing, dead, has meter below 100, or is
already boosting; otherwise set the boost fields and emit `boostStart`. -/
def activateBoost (playerId : String) (now : ℚ) (st : Eng) : Eng × Bool :=
  match st.snakes.findIdx? (fun s => s.id == playerId) with
  | none => (st, false)
  | some i =>
    match st.snakes.get? i with
    | none => (st, false)
    | some s =>
      if ¬ s.alive ∨ s.boostMeter < 100 ∨ s.isBoosting then (st, false)
      else
        let st1 := updSnakeAt i (boostSetUpd now) st
        ({ st1 with events := st1.events ++ [GEvent.boostStart s.id] }, true)

/-- Spawn-position retry loop of `addPlayer` (at most 10 attempts; each
attempt draws a fresh position and accepts it unless some living snake's
head is within distance 200). -/
def spawnSafe (pos : Point) (snakes : List Snake) : Bool :=
  snakes.all (fun o =>
    if o.alive ∧ o.segments.length ≠ 0 then
      ¬ distLt pos (o.segments.headD ⟨0, 0⟩) 200
    else true)

/-- The bounded retry loop (`while (!isSafe && attempts < 10)`). -/
def spawnLoop : ℕ → Point → Eng → Point × Eng
  | 0, pos, st => (pos, st)
  | fuel + 1, _, st =>
    let r1 := rand st
    let r2 := rand r1.2
    let p : Point := ⟨300 + r1.1 * (st.width - 600), 300 + r2.1 * (st.height - 600)⟩
    if spawnSafe p r2.2.snakes then (p, r2.2) else spawnLoop fuel p r2.2

/-- The snake `addPlayer` pushes: `createSnake`, stamp `createdAt`, then the
`if (snake.speed === 0)` fixup (never taken for `createSnake`'s speed 3, but
embedded faithfully). -/
def mkPlayerSnake (id name : String) (pos : Point) (now : ℚ) (st : Eng) : Snake × Eng :=
  let cs := createSnake id name pos st
  let snake1 := { cs.1 with createdAt := now }
  (if snake1.speed = 0 then { snake1 with speed := 5 / 2, baseSpeed := 5 / 2 } else snake1, cs.2)

/-- `engine.ts` `addPlayer(name)`: fresh id, an initial random position that
the retry loop immediately overwrites, the bounded safe-spawn loop, then
push the created snake. -/
def addPlayer (name : String) (now : ℚ) (st : Eng) : String × Eng :=
  let fid := freshId st
  let r1 := rand fid.2
  let r2 := rand r1.2
  let pos0 : Point := ⟨300 + r1.1 * (st.width - 600), 300 + r2.1 * (st.height - 600)⟩
  let sl := spawnLoop 10 pos0 r2.2
  let ms := mkPlayerSnake fid.1 name sl.1 now sl.2
  (fid.1, { ms.2 with snakes := ms.2.snakes ++ [ms.1] })

/-- `engine.ts` `removePlayer(id)`: drop the snake, recompute the
leaderboard. -/
def removePlayer (id : String) (st : Eng) : Eng :=
  updateLeaderboard { st with snakes := st.snakes.filter (fun s => ¬ s.id == id) }

/-- A listener (`GameEventListener`): may fail (throw), modelled with
`Except`. -/
def Listener := GEvent → Except String Unit

/-- `engine.ts` `emitEvent` body: `forEach` over the listeners with a
`try/catch` around each call - an error is recorded (caught and logged) and
iteration continues with the remaining listeners; nothing propagates to the
caller (the result is a plain list of per-listener outcomes). -/
def emitEventAux : List Listener → GEvent → List (Except String Unit)
  | [], _ => []
  | l :: rest, ev =>
    match l ev with
    | Except.ok u => Except.ok u :: emitEventAux rest ev
    | Except.error e => Except.error e :: emitEventAux rest ev

/-- Pointwise snake invariant over a game state. -/
def SnakeInv (P : Snake → Prop) (st : Eng) : Prop :=
  ∀ s ∈ st.snakes, P s

/-- The speed/boost relation of the data-model invariant. -/
def SpeedOK (s : Snake) : Prop :=
  s.speed = s.baseSpeed * (if s.isBoosting then 2 else 1)

/-- Boost meter stays at most 100 (non-negativity is by the `ℕ` carrier,
faithful: the source only ever assigns 0, `min(100, m+5)`, `min(100, m+25)`). -/
def MeterOK (s : Snake) : Prop := s.boostMeter ≤ 100

/-- Alive snakes have at least one segment. -/
def AliveOK (s : Snake) : Prop := s.alive = true → s.segments ≠ []

/-- Closure of a pointwise snake property under every primitive snake
mutation the engine performs. -/
structure PtClosed (P : Snake → Prop) : Prop where
  dead : ∀ s, P s → P (deadUpd s)
  eat : ∀ s v amt, P s → P (eatUpd v amt s)
  credit : ∀ s n, P s → P (killCreditUpd n s)
  boostClear : ∀ s, P s → P (boostClearUpd s)
  boostSet : ∀ s now, P s → P (boostSetUpd now s)
  move : ∀ s p, P s → P (moveUpd p s)
  input : ∀ s b d, P s → P (inputUpd b d s)

/-- Spec-side leaderboard ("Modelled from the spec's words", for refinement
comparison only): LIVE snakes only, sorted by score descending, top 10. -/
def leaderboardSpecAlive (snakes : List Snake) : List LBEntry :=
  (sortDesc LBEntry.score ((snakes.filter (fun s => s.alive)).map lbProj)).take 10

/-! ### Concrete states used by the closed theorems and witnesses -/

/-- A snake with the engine-default dynamic fields and the given identity,
body, score and direction. -/
def mkSnake (id name : String) (segs : List Point) (score : ℕ) (dir : Point) : Snake :=
  { id := id, name := name, color := "#FF5252", segments := segs, direction := dir,
    speed := 3, baseSpeed := 3, score := score, alive := true, pattern := "solid",
    secondaryColor := "#FFFFFF", glowIntensity := 1, scale := 1, boostMeter := 0,
    isBoosting := false, boostEndTime := 0, kills := 0, lastKill := none,
    activePowerUps := [], createdAt := 0 }

/-- A 1000×1000 engine state with the given snakes and foods, zeroed
accumulators, and the all-zero rng / sqrt streams. -/
def mkEng (snakes : List Snake) (foods : List Food) : Eng :=
  { width := 1000, height := 1000, snakes := snakes, foods := foods, leaderboard := [],
    lastTick := 0, foodSpawnCounter := 0, events := [], rng := fun _ => 0, rix := 0,
    nextId := 0, sqrtFn := fun _ => 0, ticks := 0 }

/-- Longer snake (4 segments) whose head touches `snakeB`'s head. -/
def snakeA : Snake :=
  mkSnake "A" "Alpha" [⟨100, 100⟩, ⟨400, 400⟩, ⟨410, 400⟩, ⟨420, 400⟩] 10 ⟨1, 0⟩

/-- Shorter snake (1 segment) in head-to-head contact with `snakeA`. -/
def snakeB : Snake := mkSnake "B" "Bravo" [⟨105, 100⟩] 4 ⟨1, 0⟩

/-- Head-to-head collision state: the longer `snakeA` is iterated first. -/
def c1State : Eng := mkEng [snakeA, snakeB] []

/-- A high-value (special) food, value 9, within eating range of the snake
in `c3State`. -/
def c3Food : Food :=
  { id := "f1", position := ⟨105, 100⟩, value := 9, color := "#FFC107",
    radius := 9, glowIntensity := 1, pulseRate := 3 }

/-- One snake about to eat the high-value food `c3Food`. -/
def c3State : Eng := mkEng [mkSnake "s" "Sam" [⟨100, 100⟩, ⟨400, 400⟩] 0 ⟨1, 0⟩] [c3Food]

/-- One dead snake with score 5 (dead snakes stay in `state.snakes` until
explicitly removed). -/
def c2Snake : Snake := { mkSnake "a" "Ann" [⟨500, 500⟩] 5 ⟨1, 0⟩ with alive := false }

/-- State containing only the dead `c2Snake`. -/
def c2State : Eng := mkEng [c2Snake] []

/-- Empty engine state, for the tick-gating claims. -/
def c4State : Eng := mkEng [] []

/-- One alive snake with default direction `(1, 0)` and base speed 3. -/
def c5State : Eng := mkEng [mkSnake "a" "Ann" [⟨500, 500⟩] 0 ⟨1, 0⟩] []

/-- Zero-vector input addressed to the snake of `c5State`. -/
def c5Input : PlayerInput := ⟨"a", ⟨0, 0⟩⟩

/-- A snake with score 7 heading into the border danger margin (its next
head lands at x = 28 < 30). -/
def c6Snake : Snake :=
  mkSnake "b" "Bea" [⟨31, 100⟩, ⟨600, 600⟩, ⟨601, 600⟩, ⟨602, 600⟩, ⟨603, 600⟩] 7 ⟨-1, 0⟩

/-- State containing only `c6Snake`. -/
def c6State : Eng := mkEng [c6Snake] []

/-- A snake with a full boost meter, not boosting. -/
def w7Snake : Snake := { mkSnake "a" "Ann" [⟨500, 500⟩] 0 ⟨1, 0⟩ with boostMeter := 100 }

/-- State containing only `w7Snake`. -/
def w7State : Eng := mkEng [w7Snake] []

/-- A boosting snake (speed doubled) whose boost window has expired at time
1000. -/
def w7bSnake : Snake :=
  { mkSnake "a" "Ann" [⟨500, 500⟩] 0 ⟨1, 0⟩ with
    isBoosting := true, speed := 6, boostEndTime := 900, boostMeter := 100 }

/-- State containing only the expired-boost snake `w7bSnake`. -/
def w7bState : Eng := mkEng [w7bSnake] []

/-- A listener that always fails, for the listener-isolation witness. -/
def failListener : Listener := fun _ => Except.error "boom"

/-- A listener that always succeeds, for the listener-isolation witness. -/
def okListener : Listener := fun _ => Except.ok ()

end SnakeGame

namespace SnakeGame

/-! ### Theorems -/

set_option maxRecDepth 100000

/-- C1: the claim says that in a head-to-head collision between two alive
snakes where one is strictly longer by more than 2 segments, the longer
snake survives, gains a kill and absorbs half the loser's score while the
shorter snake is marked dead.  The code does the opposite when the longer
snake is iterated first: its "larger snake" branch calls
`killSnake(snake.id, ...)` on the LONGER snake itself (contradicting the
branch's own comment "This snake is larger and gets a kill"), so the longer
snake `A` (4 segments) ends up dead - while still being credited the kill
and half of `B`'s score - and the shorter snake `B` (1 segment) stays
alive.  The event log shows `playerDeath` for `A`. -/
theorem c1_code_bug :
    (checkCollisions 0 c1State).snakes.map (fun s => (s.id, s.alive, s.kills, s.score)) =
      [("A", false, 1, 12), ("B", true, 0, 4)] ∧
    (checkCollisions 0 c1State).events =
      [GEvent.playerDeath "A" (some "B") 1 10 0,
       GEvent.playerKill "A" "Alpha" "B" "Bravo" 12] ∧
    snakeA.segments.length = snakeB.segments.length + 3 ∧
    distLt (snakeA.segments.headD ⟨0, 0⟩) (snakeB.segments.headD ⟨0, 0⟩) 20 = true := by
  refine ⟨?_, ?_, ?_, ?_⟩ <;> with_unfolding_all decide

/-- C3: the claim says a high-value food eaten in a tick yields a
`specialFoodCollect` event.  Because `updateSpatialGrid` registers EVERY
food twice - its "Add special food to the grid" loop iterates
`this.state.foods` again - the `'food'`-typed entry is scanned first and the
ordinary handler consumes the value-9 food: score and growth are exact
(+9 score, +9 segments) and the food is removed, but the emitted event is
`foodCollect` with the ordinary +5 boost-meter bump instead of
`specialFoodCollect` (+25). -/
theorem c3_code_bug :
    c3State.foods.map Food.value = [9] ∧
    (checkCollisions 0 c3State).events = [GEvent.foodCollect "s" 9 5] ∧
    (checkCollisions 0 c3State).snakes.map
        (fun s => (s.score, s.segments.length, s.boostMeter, s.alive)) =
      [(9, 11, 5, true)] ∧
    (checkCollisions 0 c3State).foods = [] := by
  refine ⟨?_, ?_, ?_, ?_⟩ <;> with_unfolding_all decide

/-- C2 counterexample: the claim says the leaderboard equals the LIVE
snakes projected/sorted/truncated.  `updateLeaderboard` does not filter on
`alive`: after `removePlayer` of an absent id on a state whose only snake is
dead, the code's leaderboard lists that dead snake while the spec-side
(alive-only) leaderboard is empty. -/
theorem c2_counterexample :
    (removePlayer "zz" c2State).leaderboard = [⟨"a", "Ann", 5⟩] ∧
    leaderboardSpecAlive (removePlayer "zz" c2State).snakes = [] ∧
    (removePlayer "zz" c2State).leaderboard ≠
      leaderboardSpecAlive (removePlayer "zz" c2State).snakes := by
  refine ⟨?_, ?_, ?_⟩ <;> with_unfolding_all decide

/-- C4 counterexample: the claim says leftover accumulated time beyond the
consumed whole ticks carries over to the next call.  Calling `update` with
`deltaTime = 40` (accumulator 0, tick interval 1000/60) performs exactly one
tick yet resets the accumulator to 0, although the leftover beyond the one
consumed tick, `40 - 1000/60`, is non-zero - the leftover is discarded. -/
theorem c4_counterexample :
    (update 40 0 c4State).ticks = c4State.ticks + 1 ∧
    (update 40 0 c4State).lastTick = 0 ∧
    c4State.lastTick + 40 - tickRate * 1 ≠ 0 := by
  refine ⟨?_, ?_, ?_⟩ <;> with_unfolding_all decide

/-- C5 counterexample: the claim says a zero-vector direction input leaves
the game state unchanged.  On an alive snake with direction `(1, 0)` and
base speed 3, the zero-vector input mutates the snake: direction becomes
`(0, 0)` and base speed drops to 2, so the snakes list changes. -/
theorem c5_counterexample :
    c5Input.direction = ⟨0, 0⟩ ∧
    (handlePlayerInput c5Input c5State).snakes ≠ c5State.snakes ∧
    (handlePlayerInput c5Input c5State).snakes.map
        (fun s => (s.direction, s.baseSpeed, s.speed)) = [(⟨0, 0⟩, 2, 2)] ∧
    c5State.snakes.map (fun s => (s.direction, s.baseSpeed, s.speed)) =
      [(⟨1, 0⟩, 3, 3)] := by
  refine ⟨?_, ?_, ?_, ?_⟩ <;> with_unfolding_all decide

/-- C6 counterexample: the claim says the `playerDeathBorder` event emitted
on a danger-margin death carries the snake's correct final score.  The
danger-zone branch of `updateSnakes` emits `playerDeathBorder` with payload
`{ playerId }` only: the dying snake's final score is 7, yet the emitted
event carries no score field at all. -/
theorem c6_counterexample :
    (updateSnakes c6State).events = [GEvent.borderDeath "b"] ∧
    GEvent.etype (GEvent.borderDeath "b") = GameEventType.playerDeathBorder ∧
    (updateSnakes c6State).snakes.map Snake.score = [7] ∧
    GEvent.scoreOf (GEvent.borderDeath "b") = none := by
  refine ⟨?_, ?_, ?_, ?_⟩ <;> with_unfolding_all decide

end SnakeGame

namespace SnakeGame

/-! ### Infrastructure lemmas -/

theorem listModify_get?_self (f : α → α) :
    ∀ (i : ℕ) (l : List α), (listModify f i l).get? i = (l.get? i).map f := by
  intro i
  induction i with
  | zero => intro l; cases l <;> rfl
  | succ n ih => intro l; cases l with
    | nil => rfl
    | cons a as => simpa [listModify] using ih as

theorem listModify_get?_ne (f : α → α) :
    ∀ (i j : ℕ) (l : List α), j ≠ i → (listModify f i l).get? j = l.get? j := by
  intro i
  induction i with
  | zero =>
    intro j l hj
    cases l with
    | nil => rfl
    | cons a as => cases j with
      | zero => exact absurd rfl hj
      | succ m => rfl
  | succ n ih =>
    intro j l hj
    cases l with
    | nil => rfl
    | cons a as => cases j with
      | zero => rfl
      | succ m => simpa [listModify] using ih m as (fun h => hj (by omega))

theorem listModify_length (f : α → α) :
    ∀ (i : ℕ) (l : List α), (listModify f i l).length = l.length := by
  intro i
  induction i with
  | zero => intro l; cases l <;> rfl
  | succ n ih => intro l; cases l with
    | nil => rfl
    | cons a as => simpa [listModify] using ih as

theorem mem_listModify (f : α → α) (a : α) :
    ∀ (i : ℕ) (l : List α), a ∈ listModify f i l → a ∈ l ∨ ∃ b, b ∈ l ∧ a = f b := by
  intro i
  induction i with
  | zero =>
    intro l ha
    cases l with
    | nil => exact Or.inl ha
    | cons x xs =>
      rcases List.mem_cons.1 ha with h | h
      · exact Or.inr ⟨x, List.mem_cons_self x xs, h⟩
      · exact Or.inl (List.mem_cons_of_mem x h)
  | succ n ih =>
    intro l ha
    cases l with
    | nil => exact Or.inl ha
    | cons x xs =>
      rcases List.mem_cons.1 ha with h | h
      · exact Or.inl (h ▸ List.mem_cons_self x xs)
      · rcases ih xs h with h1 | ⟨b, hb, rfl⟩
        · exact Or.inl (List.mem_cons_of_mem x h1)
        · exact Or.inr ⟨b, List.mem_cons_of_mem x hb, rfl⟩

theorem foldl_eng_inv {β : Type _} (Inv : Eng → Prop) (g : Eng → β → Eng)
    (hg : ∀ st b, Inv st → Inv (g st b)) :
    ∀ (l : List β) (st : Eng), Inv st → Inv (l.foldl g st) := by
  intro l
  induction l with
  | nil => intro st h; exact h
  | cons b bs ih => intro st h; exact ih _ (hg _ _ h)

theorem spawnFoodAt_snakes (pos : Point) (v : ℕ) (st : Eng) :
    (spawnFoodAt pos v st).snakes = st.snakes := rfl

theorem spawnFood_snakes (st : Eng) : (spawnFood st).snakes = st.snakes := rfl

theorem dropStep_snakes (s : Snake) (acc : Eng) (idx : ℕ) :
    (dropStep s acc idx).snakes = acc.snakes := rfl

theorem dropFood_snakes (s : Snake) (st : Eng) :
    (dropFoodFromSnake s st).snakes = st.snakes := by
  have h : ∀ (l : List ℕ) (st0 : Eng), st0.snakes = st.snakes →
      (l.foldl (dropStep s) st0).snakes = st.snakes :=
    fun l st0 h0 => foldl_eng_inv (fun x => x.snakes = st.snakes) (dropStep s)
      (fun a b hh => hh) l st0 h0
  by_cases h0 : 0 < s.segments.length
  · simp only [dropFoodFromSnake, if_pos h0, spawnFoodAt_snakes]
    exact h _ _ rfl
  · simp only [dropFoodFromSnake, if_neg h0]
    exact h _ _ rfl

theorem updSnakeAt_snakeInv {P : Snake → Prop} {f : Snake → Snake} {st : Eng} {i : ℕ}
    (hf : ∀ s, P s → P (f s)) (h : SnakeInv P st) : SnakeInv P (updSnakeAt i f st) := by
  intro a ha
  rcases mem_listModify f a i st.snakes ha with h1 | ⟨b, hb, rfl⟩
  · exact h a h1
  · exact hf b (h b hb)

theorem snakeInv_of_eq {P : Snake → Prop} {st1 st2 : Eng}
    (hs : st2.snakes = st1.snakes) (h : SnakeInv P st1) : SnakeInv P st2 := by
  intro a ha
  exact h a (hs ▸ ha)

end SnakeGame

namespace SnakeGame

theorem updateLeaderboard_snakes (st : Eng) : (updateLeaderboard st).snakes = st.snakes := rfl

theorem mkPlayerSnake_snakes (id name : String) (pos : Point) (now : ℚ) (st : Eng) :
    (mkPlayerSnake id name pos now st).2.snakes = st.snakes := rfl

theorem spawnLoop_snakes : ∀ (fuel : ℕ) (pos : Point) (st : Eng),
    (spawnLoop fuel pos st).2.snakes = st.snakes := by
  intro fuel
  induction fuel with
  | zero => intro pos st; rfl
  | succ n ih =>
    intro pos st
    show (if spawnSafe _ _ then _ else spawnLoop n _ _).2.snakes = st.snakes
    split
    · rfl
    · exact ih _ _

theorem killSnake_snakeInv {P : Snake → Prop} {st : Eng}
    (hd : ∀ s, P s → P (deadUpd s)) (h : SnakeInv P st)
    (now : ℚ) (sid : String) (kid : Option String) (cause : String) :
    SnakeInv P (killSnake now sid kid cause st) := by
  unfold killSnake
  split
  · exact h
  · split
    · exact h
    · split
      · split <;> split <;>
          exact updSnakeAt_snakeInv hd (snakeInv_of_eq (dropFood_snakes _ _) h)
      · exact h

theorem handleFood_snakeInv {P : Snake → Prop} {st : Eng}
    (he : ∀ s v amt, P s → P (eatUpd v amt s)) (h : SnakeInv P st) (i fi : ℕ) :
    SnakeInv P (handleFoodCollision i fi st) := by
  unfold handleFoodCollision
  split
  · exact h
  · exact updSnakeAt_snakeInv (fun s hs => he s _ _ hs) h

theorem handleSpecial_snakeInv {P : Snake → Prop} {st : Eng}
    (he : ∀ s v amt, P s → P (eatUpd v amt s)) (h : SnakeInv P st) (i fi : ℕ) :
    SnakeInv P (handleSpecialFoodCollision i fi st) := by
  unfold handleSpecialFoodCollision
  split
  · exact h
  · split
    · exact h
    · exact updSnakeAt_snakeInv (fun s hs => he s _ _ hs) h

theorem foodScanItem_snakeInv {P : Snake → Prop} {st : Eng}
    (he : ∀ s v amt, P s → P (eatUpd v amt s)) (h : SnakeInv P st)
    (i : ℕ) (head : Point) (it : GItem) :
    SnakeInv P (foodScanItem i head it st) := by
  unfold foodScanItem
  split
  · exact h
  · split
    · split
      · exact handleFood_snakeInv he h _ _
      · exact h
    · exact h
  · split
    · split
      · exact handleSpecial_snakeInv he h _ _
      · exact h
    · exact h

theorem foodPhase_snakeInv {P : Snake → Prop} {st : Eng}
    (he : ∀ s v amt, P s → P (eatUpd v amt s)) (h : SnakeInv P st)
    (g : Grid) (i : ℕ) (head : Point) :
    SnakeInv P (foodPhase g i head st) := by
  unfold foodPhase
  refine foldl_eng_inv (SnakeInv P) _ ?_ _ _ h
  intro st0 off h0
  refine foldl_eng_inv (SnakeInv P) _ ?_ _ _ h0
  intro st1 it h1
  exact foodScanItem_snakeInv he h1 _ _ _

theorem segsLoop_snakeInv {P : Snake → Prop} (hc : PtClosed P)
    (now : ℚ) (i oIdx : ℕ) (head : Point) :
    ∀ (js : List ℕ) (st : Eng), SnakeInv P st →
      SnakeInv P (segsLoop now i oIdx head js st).1 := by
  intro js
  induction js with
  | nil => intro st h; exact h
  | cons j rest ih =>
    intro st h
    unfold segsLoop
    split
    · split
      · split
        · split
          · exact ih _ (snakeInv_of_eq rfl (updSnakeAt_snakeInv (fun s hs => hc.credit s _ hs)
              (killSnake_snakeInv hc.dead h now _ _ _)))
          · split
            · exact updSnakeAt_snakeInv (fun s hs => hc.credit s _ hs)
                (killSnake_snakeInv hc.dead h now _ _ _)
            · split
              · exact updSnakeAt_snakeInv (fun s hs => hc.credit s _ hs)
                  (killSnake_snakeInv hc.dead h now _ _ _)
              · exact ih _ h
        · exact ih _ h
      · exact ih _ h
    · exact ih _ h

theorem othersLoop_snakeInv {P : Snake → Prop} (hc : PtClosed P)
    (now : ℚ) (i : ℕ) (head : Point) :
    ∀ (os : List ℕ) (st : Eng), SnakeInv P st →
      SnakeInv P (othersLoop now i head os st).1 := by
  intro os
  induction os with
  | nil => intro st h; exact h
  | cons oIdx rest ih =>
    intro st h
    unfold othersLoop
    split
    · exact ih _ h
    · split
      · rename_i o heqo
        split
        · rcases hseg : segsLoop now i oIdx head (List.range o.segments.length) st
            with ⟨st1, b⟩
          have h1 := segsLoop_snakeInv hc now i oIdx head
            (List.range o.segments.length) st h
          rw [hseg] at h1
          cases b
          · exact ih _ h1
          · exact h1
        · exact ih _ h
      · exact ih _ h

theorem selfLoop_snakeInv {P : Snake → Prop} (hd : ∀ s, P s → P (deadUpd s))
    (now : ℚ) (i : ℕ) (head : Point) :
    ∀ (js : List ℕ) (st : Eng), SnakeInv P st →
      SnakeInv P (selfLoop now i head js st).1 := by
  intro js
  induction js with
  | nil => intro st h; exact h
  | cons j rest ih =>
    intro st h
    unfold selfLoop
    split
    · split
      · split
        · exact killSnake_snakeInv hd h now _ _ _
        · exact ih _ h
      · exact ih _ h
    · exact ih _ h

theorem borderCheck_snakeInv {P : Snake → Prop} {st : Eng}
    (hd : ∀ s, P s → P (deadUpd s)) (h : SnakeInv P st)
    (now : ℚ) (s : Snake) (head : Point) :
    SnakeInv P (borderCheck now s head st) := by
  unfold borderCheck
  split
  · exact killSnake_snakeInv hd h now _ _ _
  · exact h

theorem afterSelf_snakeInv {P : Snake → Prop} {r : Eng × Bool}
    (hd : ∀ s, P s → P (deadUpd s)) (h : SnakeInv P r.1)
    (now : ℚ) (s : Snake) (head : Point) :
    SnakeInv P (afterSelf now s head r) := by
  rcases r with ⟨st3, b⟩
  cases b
  · exact borderCheck_snakeInv hd h now s head
  · exact h

theorem afterOthers_snakeInv {P : Snake → Prop} {r : Eng × Bool} (hc : PtClosed P)
    (h : SnakeInv P r.1) (now : ℚ) (i : ℕ) (s : Snake) (head : Point) :
    SnakeInv P (afterOthers now i s head r) := by
  rcases r with ⟨st2, b⟩
  cases b
  · unfold afterOthers
    dsimp only
    split
    · exact afterSelf_snakeInv hc.dead
        (selfLoop_snakeInv hc.dead now i head _ st2 h) now s head
    · exact borderCheck_snakeInv hc.dead h now s head
  · exact h

theorem collideSnakeStep_snakeInv {P : Snake → Prop} (hc : PtClosed P) {st : Eng}
    (h : SnakeInv P st) (now : ℚ) (g : Grid) (i : ℕ) :
    SnakeInv P (collideSnakeStep now g st i) := by
  unfold collideSnakeStep
  split
  · exact h
  · split
    · exact afterOthers_snakeInv hc
        (othersLoop_snakeInv hc now i _ (List.range _) _
          (foodPhase_snakeInv hc.eat h g i _)) now i _ _
    · exact h

theorem checkCollisions_snakeInv {P : Snake → Prop} (hc : PtClosed P) {st : Eng}
    (h : SnakeInv P st) (now : ℚ) :
    SnakeInv P (checkCollisions now st) := by
  unfold checkCollisions
  refine foldl_eng_inv (SnakeInv P) _ ?_ _ _ h
  intro st0 i h0
  exact collideSnakeStep_snakeInv hc h0 now _ i

theorem moveSnakeStep_snakeInv {P : Snake → Prop} (hc : PtClosed P) {st : Eng}
    (h : SnakeInv P st) (i : ℕ) :
    SnakeInv P (moveSnakeStep st i) := by
  unfold moveSnakeStep
  split
  · exact h
  · split
    · dsimp only
      split
      · exact updSnakeAt_snakeInv hc.dead (snakeInv_of_eq (dropFood_snakes _ _) h)
      · exact updSnakeAt_snakeInv (fun s hs => hc.move s _ hs) h
    · exact h

theorem updateSnakes_snakeInv {P : Snake → Prop} (hc : PtClosed P) {st : Eng}
    (h : SnakeInv P st) : SnakeInv P (updateSnakes st) := by
  unfold updateSnakes
  refine foldl_eng_inv (SnakeInv P) _ ?_ _ _ h
  intro st0 i h0
  exact moveSnakeStep_snakeInv hc h0 i

theorem checkBoostStep_snakeInv {P : Snake → Prop} (hc : PtClosed P) {st : Eng}
    (h : SnakeInv P st) (now : ℚ) (i : ℕ) :
    SnakeInv P (checkBoostStep now st i) := by
  unfold checkBoostStep
  split
  · exact h
  · split
    · exact updSnakeAt_snakeInv hc.boostClear h
    · exact h

theorem checkBoostStatus_snakeInv {P : Snake → Prop} (hc : PtClosed P) {st : Eng}
    (h : SnakeInv P st) (now : ℚ) :
    SnakeInv P (checkBoostStatus now st) := by
  unfold checkBoostStatus
  refine foldl_eng_inv (SnakeInv P) _ ?_ _ _ h
  intro st0 i h0
  exact checkBoostStep_snakeInv hc h0 now i

theorem spawnPhase_snakeInv {P : Snake → Prop} {st : Eng}
    (h : SnakeInv P st) (dt : ℚ) : SnakeInv P (spawnPhase dt st) := by
  unfold spawnPhase
  dsimp only
  split
  · split
    · exact snakeInv_of_eq (spawnFood_snakes _) h
    · exact h
  · exact h

theorem tickBody_snakeInv {P : Snake → Prop} (hc : PtClosed P) {st : Eng}
    (h : SnakeInv P st) (dt now : ℚ) : SnakeInv P (tickBody dt now st) := by
  exact spawnPhase_snakeInv (checkCollisions_snakeInv hc
    (updateSnakes_snakeInv hc (checkBoostStatus_snakeInv hc h now)) now) dt

theorem update_snakeInv {P : Snake → Prop} (hc : PtClosed P) {st : Eng}
    (h : SnakeInv P st) (dt now : ℚ) :
    SnakeInv P (update dt now st) := by
  unfold update
  dsimp only
  split
  · exact h
  · have h2 : SnakeInv P { st with lastTick := 0, ticks := st.ticks + 1 } := h
    exact tickBody_snakeInv hc h2 dt now

theorem handlePlayerInput_snakeInv {P : Snake → Prop} (hc : PtClosed P) {st : Eng}
    (h : SnakeInv P st) (input : PlayerInput) :
    SnakeInv P (handlePlayerInput input st) := by
  unfold handlePlayerInput
  split
  · exact h
  · split
    · exact h
    · split
      · exact updSnakeAt_snakeInv (fun s hs => hc.input s _ _ hs) h
      · exact h

theorem activateBoost_snakeInv {P : Snake → Prop} (hc : PtClosed P) {st : Eng}
    (h : SnakeInv P st) (pid : String) (now : ℚ) :
    SnakeInv P (activateBoost pid now st).1 := by
  unfold activateBoost
  split
  · exact h
  · split
    · exact h
    · split
      · exact h
      · exact updSnakeAt_snakeInv (fun s hs => hc.boostSet s now hs) h

theorem removePlayer_snakeInv {P : Snake → Prop} {st : Eng}
    (h : SnakeInv P st) (pid : String) :
    SnakeInv P (removePlayer pid st) := by
  intro a ha
  exact h a (List.mem_of_mem_filter ha)

theorem addPlayer_snakeInv {P : Snake → Prop} {st : Eng}
    (hnew : ∀ id name pos now st2, P (mkPlayerSnake id name pos now st2).1)
    (h : SnakeInv P st) (name : String) (now : ℚ) :
    SnakeInv P (addPlayer name now st).2 := by
  intro a ha
  have hsn : a ∈ (spawnLoop 10 _ _).2.snakes ++ [(mkPlayerSnake _ name _ now _).1] := ha
  rw [spawnLoop_snakes] at hsn
  rcases List.mem_append.1 hsn with h1 | h1
  · exact h a h1
  · rcases List.mem_singleton.1 h1 with rfl
    exact hnew _ _ _ _ _

end SnakeGame

namespace SnakeGame

theorem ptClosed_speedOK : PtClosed SpeedOK := by
  constructor
  · intro s h; exact h
  · intro s v amt h; exact h
  · intro s n h; exact h
  · intro s h
    simp only [SpeedOK, boostClearUpd, Bool.false_eq_true, if_false, mul_one]
  · intro s now h
    simp only [SpeedOK, boostSetUpd, if_true]
  · intro s p h; exact h
  · intro s b d h
    simp only [SpeedOK, inputUpd]
    by_cases hb : s.isBoosting = true <;> simp [hb]

theorem mkPlayerSnake_speedOK (id name : String) (pos : Point) (now : ℚ) (st : Eng) :
    SpeedOK (mkPlayerSnake id name pos now st).1 := by
  simp [mkPlayerSnake, createSnake, SpeedOK]

/-- C8: for every snake in the game state, `speed = baseSpeed * 2` when
boosting and `speed = baseSpeed` otherwise, and the relation is preserved by
every public engine operation (`addPlayer`, `handlePlayerInput`,
`activateBoost`, `update`, `removePlayer`). -/
theorem c8_speed_invariant (st : Eng) (hInv : SnakeInv SpeedOK st) :
    (∀ name now, SnakeInv SpeedOK (addPlayer name now st).2) ∧
    (∀ input, SnakeInv SpeedOK (handlePlayerInput input st)) ∧
    (∀ pid now, SnakeInv SpeedOK (activateBoost pid now st).1) ∧
    (∀ dt now, SnakeInv SpeedOK (update dt now st)) ∧
    (∀ pid, SnakeInv SpeedOK (removePlayer pid st)) := by
  refine ⟨?_, ?_, ?_, ?_, ?_⟩
  · intro name now
    exact addPlayer_snakeInv (fun a b c d e => mkPlayerSnake_speedOK a b c d e) hInv name now
  · intro input; exact handlePlayerInput_snakeInv ptClosed_speedOK hInv input
  · intro pid now; exact activateBoost_snakeInv ptClosed_speedOK hInv pid now
  · intro dt now; exact update_snakeInv ptClosed_speedOK hInv dt now
  · intro pid; exact removePlayer_snakeInv hInv pid

/-- Witness for C8 at a concrete one-snake state. -/
theorem c8_speed_invariant_witness :
    SnakeInv SpeedOK c5State ∧ (∀ dt now, SnakeInv SpeedOK (update dt now c5State)) := by
  have h0 : SnakeInv SpeedOK c5State := by
    intro s hs
    simp only [c5State, mkEng, List.mem_singleton] at hs
    subst hs
    simp [SpeedOK, mkSnake]
  exact ⟨h0, (c8_speed_invariant c5State h0).2.2.2.1⟩

theorem ptClosed_aliveOK : PtClosed AliveOK := by
  constructor
  · intro s h; simp [AliveOK, deadUpd]
  · intro s v amt h
    simp only [AliveOK, eatUpd] at h ⊢
    intro ha
    simp only [ne_eq, List.append_eq_nil]
    intro hcon
    exact h ha hcon.1
  · intro s n h; exact h
  · intro s h; exact h
  · intro s now h; exact h
  · intro s p h
    simp [AliveOK, moveUpd]
  · intro s b d h; exact h

theorem mkPlayerSnake_aliveOK (id name : String) (pos : Point) (now : ℚ) (st : Eng) :
    AliveOK (mkPlayerSnake id name pos now st).1 := by
  simp [mkPlayerSnake, createSnake, AliveOK, List.range_succ]

/-- C9: every alive snake has at least one segment, and the invariant is
preserved by every engine operation; moreover creation yields 10 segments
(positive), a movement step keeps the length unchanged (prepend head, pop
tail), and eating appends exactly the food's value in segments. -/
theorem c9_segments_invariant (st : Eng) (hInv : SnakeInv AliveOK st) :
    (∀ name now, SnakeInv AliveOK (addPlayer name now st).2) ∧
    (∀ input, SnakeInv AliveOK (handlePlayerInput input st)) ∧
    (∀ pid now, SnakeInv AliveOK (activateBoost pid now st).1) ∧
    (∀ dt now, SnakeInv AliveOK (update dt now st)) ∧
    (∀ pid, SnakeInv AliveOK (removePlayer pid st)) ∧
    (∀ id name pos now st2, 0 < (mkPlayerSnake id name pos now st2).1.segments.length) ∧
    (∀ s p, s.segments ≠ [] → (moveUpd p s).segments.length = s.segments.length) ∧
    (∀ s v amt, (eatUpd v amt s).segments.length = s.segments.length + v) := by
  refine ⟨?_, ?_, ?_, ?_, ?_, ?_, ?_, ?_⟩
  · intro name now
    exact addPlayer_snakeInv (fun a b c d e => mkPlayerSnake_aliveOK a b c d e) hInv name now
  · intro input; exact handlePlayerInput_snakeInv ptClosed_aliveOK hInv input
  · intro pid now; exact activateBoost_snakeInv ptClosed_aliveOK hInv pid now
  · intro dt now; exact update_snakeInv ptClosed_aliveOK hInv dt now
  · intro pid; exact removePlayer_snakeInv hInv pid
  · intro id name pos now st2
    unfold mkPlayerSnake
    dsimp only
    split <;>
      simp only [createSnake, List.length_map, List.length_range] <;> norm_num
  · intro s p hne
    simp only [moveUpd, List.length_cons, List.length_dropLast]
    have : 0 < s.segments.length := List.length_pos.2 hne
    omega
  · intro s v amt
    simp [eatUpd]

/-- Witness for C9 at a concrete one-snake state. -/
theorem c9_segments_invariant_witness :
    SnakeInv AliveOK c5State ∧ (∀ dt now, SnakeInv AliveOK (update dt now c5State)) := by
  have h0 : SnakeInv AliveOK c5State := by
    intro s hs
    simp only [c5State, mkEng, List.mem_singleton] at hs
    subst hs
    simp [AliveOK, mkSnake]
  exact ⟨h0, (c9_segments_invariant c5State h0).2.2.2.1⟩

end SnakeGame

namespace SnakeGame

theorem findIdx?_listModify {p : α → Bool} {f : α → α} (hf : ∀ a, p (f a) = p a) :
    ∀ (i : ℕ) (l : List α) (start : ℕ),
      List.findIdx? p (listModify f i l) start = List.findIdx? p l start := by
  intro i
  induction i with
  | zero =>
    intro l start
    cases l with
    | nil => rfl
    | cons a as => simp [listModify, List.findIdx?_cons, hf a]
  | succ n ih =>
    intro l start
    cases l with
    | nil => rfl
    | cons a as => simp [listModify, List.findIdx?_cons, ih as]

theorem checkBoostStep_get_ne (now : ℚ) (st : Eng) {i j : ℕ} (hne : i ≠ j) :
    (checkBoostStep now st j).snakes.get? i = st.snakes.get? i := by
  unfold checkBoostStep
  split
  · rfl
  · split
    · exact listModify_get?_ne boostClearUpd j i st.snakes hne
    · rfl

theorem checkBoostStep_get_self (now : ℚ) (st : Eng) {i : ℕ} {s : Snake}
    (hs : st.snakes.get? i = some s) (hb : s.isBoosting = true)
    (hex : s.boostEndTime ≤ now) :
    (checkBoostStep now st i).snakes.get? i = some (boostClearUpd s) := by
  unfold checkBoostStep
  split
  · rename_i heq
    rw [heq] at hs
    cases hs
  · rename_i s2 heq
    rw [heq] at hs
    injection hs with hs2
    subst hs2
    rw [if_pos ⟨hb, hex⟩]
    show (listModify boostClearUpd i st.snakes).get? i = _
    rw [listModify_get?_self, heq]
    rfl

theorem checkBoost_fold_get_not_mem (now : ℚ) {i : ℕ} :
    ∀ (l : List ℕ), i ∉ l → ∀ st : Eng,
      ((l.foldl (checkBoostStep now) st).snakes.get? i) = st.snakes.get? i := by
  intro l
  induction l with
  | nil => intro _ st; rfl
  | cons j rest ih =>
    intro hmem st
    have hne : i ≠ j := fun h => hmem (h ▸ List.mem_cons_self j rest)
    have h1 := ih (fun h => hmem (List.mem_cons_of_mem j h)) (checkBoostStep now st j)
    rw [List.foldl_cons, h1, checkBoostStep_get_ne now st hne]

theorem checkBoost_fold_get (now : ℚ) {i : ℕ} {s : Snake} :
    ∀ (l : List ℕ), l.Nodup → i ∈ l → ∀ st : Eng, st.snakes.get? i = some s →
      s.isBoosting = true → s.boostEndTime ≤ now →
      ((l.foldl (checkBoostStep now) st).snakes.get? i) = some (boostClearUpd s) := by
  intro l
  induction l with
  | nil => intro _ hmem; cases hmem
  | cons j rest ih =>
    intro hnd hmem st hs hb hex
    rcases List.nodup_cons.1 hnd with ⟨hjn, hnd2⟩
    by_cases hji : j = i
    · subst hji
      have h1 := checkBoostStep_get_self now st hs hb hex
      rw [List.foldl_cons, checkBoost_fold_get_not_mem now rest hjn _, h1]
    · have h1 : (checkBoostStep now st j).snakes.get? i = some s := by
        rw [checkBoostStep_get_ne now st (fun h => hji h.symm)]
        exact hs
      have hmem2 : i ∈ rest := by
        rcases List.mem_cons.1 hmem with h | h
        · exact absurd h.symm hji
        · exact h
      rw [List.foldl_cons]
      exact ih hnd2 hmem2 _ h1 hb hex

theorem ptClosed_meterOK : PtClosed MeterOK := by
  constructor
  · intro s h; exact h
  · intro s v amt h
    exact Nat.min_le_left 100 (s.boostMeter + amt)
  · intro s n h; exact h
  · intro s h; exact Nat.zero_le 100
  · intro s now h; exact h
  · intro s p h; exact h
  · intro s b d h; exact h

theorem mkPlayerSnake_meterOK (id name : String) (pos : Point) (now : ℚ) (st : Eng) :
    MeterOK (mkPlayerSnake id name pos now st).1 := by
  unfold mkPlayerSnake
  dsimp only
  split <;> exact Nat.zero_le 100

end SnakeGame

namespace SnakeGame

theorem activateBoost_none_eq {st : Eng} {pid : String} (now : ℚ)
    (hidx : st.snakes.findIdx? (fun t => t.id == pid) = none) :
    activateBoost pid now st = (st, false) := by
  simp only [activateBoost, hidx]

theorem activateBoost_refuse_eq {st : Eng} {pid : String} {i : ℕ} {s : Snake} (now : ℚ)
    (hidx : st.snakes.findIdx? (fun t => t.id == pid) = some i)
    (hget : st.snakes.get? i = some s)
    (hno : ¬ s.alive = true ∨ s.boostMeter < 100 ∨ s.isBoosting = true) :
    activateBoost pid now st = (st, false) := by
  simp only [activateBoost, hidx, hget]
  rw [if_pos hno]

theorem activateBoost_success_eq {st : Eng} {pid : String} {i : ℕ} {s : Snake} (now : ℚ)
    (hidx : st.snakes.findIdx? (fun t => t.id == pid) = some i)
    (hget : st.snakes.get? i = some s)
    (halive : s.alive = true) (hmeter : 100 ≤ s.boostMeter) (hboost : s.isBoosting = false) :
    activateBoost pid now st =
      ({ updSnakeAt i (boostSetUpd now) st with
          events := (updSnakeAt i (boostSetUpd now) st).events ++ [GEvent.boostStart s.id] },
        true) := by
  simp only [activateBoost, hidx, hget]
  rw [if_neg (by simp [halive, hboost]; omega)]

/-- C7: the boost-meter contract.  `boostMeter ≤ 100` (non-negativity by the
`ℕ` carrier) is preserved by every public operation; `activateBoost` refuses
- returning `false` with the state untouched - when the snake is unknown,
when the meter is below 100, or when a boost is already active; a `true`
return implies the snake was alive with a full meter and not boosting; when
a boost expires, `checkBoostStatus` applies `boostClearUpd` (flag cleared,
speed back to base, meter reset to 0); and after a successful activation a
second activation is refused without changing the state, so a full meter
enables exactly one activation until depletion. -/
theorem c7_boost_meter_contract (st : Eng) (hInv : SnakeInv MeterOK st) (pid : String) :
    (∀ name now, SnakeInv MeterOK (addPlayer name now st).2) ∧
    (∀ input, SnakeInv MeterOK (handlePlayerInput input st)) ∧
    (∀ now, SnakeInv MeterOK (activateBoost pid now st).1) ∧
    (∀ dt now, SnakeInv MeterOK (update dt now st)) ∧
    (∀ pid2, SnakeInv MeterOK (removePlayer pid2 st)) ∧
    (∀ now, st.snakes.findIdx? (fun t => t.id == pid) = none →
      activateBoost pid now st = (st, false)) ∧
    (∀ now i s, st.snakes.findIdx? (fun t => t.id == pid) = some i →
      st.snakes.get? i = some s → (s.boostMeter < 100 ∨ s.isBoosting = true) →
      activateBoost pid now st = (st, false)) ∧
    (∀ now i s, st.snakes.findIdx? (fun t => t.id == pid) = some i →
      st.snakes.get? i = some s → (activateBoost pid now st).2 = true →
      s.alive = true ∧ 100 ≤ s.boostMeter ∧ s.isBoosting = false) ∧
    (∀ now i s, st.snakes.get? i = some s → s.isBoosting = true →
      s.boostEndTime ≤ now →
      (checkBoostStatus now st).snakes.get? i = some (boostClearUpd s)) ∧
    (∀ now now2, (activateBoost pid now st).2 = true →
      activateBoost pid now2 (activateBoost pid now st).1 =
        ((activateBoost pid now st).1, false)) := by
  refine ⟨?_, ?_, ?_, ?_, ?_, ?_, ?_, ?_, ?_, ?_⟩
  · intro name now
    exact addPlayer_snakeInv (fun a b c d e => mkPlayerSnake_meterOK a b c d e) hInv name now
  · intro input; exact handlePlayerInput_snakeInv ptClosed_meterOK hInv input
  · intro now; exact activateBoost_snakeInv ptClosed_meterOK hInv pid now
  · intro dt now; exact update_snakeInv ptClosed_meterOK hInv dt now
  · intro pid2; exact removePlayer_snakeInv hInv pid2
  · intro now hidx; exact activateBoost_none_eq now hidx
  · intro now i s hidx hget hno
    refine activateBoost_refuse_eq now hidx hget ?_
    rcases hno with h | h
    · exact Or.inr (Or.inl h)
    · exact Or.inr (Or.inr h)
  · intro now i s hidx hget hsucc
    by_cases halive : s.alive = true
    · by_cases hmeter : 100 ≤ s.boostMeter
      · by_cases hboost : s.isBoosting = true
        · rw [activateBoost_refuse_eq now hidx hget (Or.inr (Or.inr hboost))] at hsucc
          cases hsucc
        · exact ⟨halive, hmeter, by simpa using hboost⟩
      · rw [activateBoost_refuse_eq now hidx hget
          (Or.inr (Or.inl (Nat.lt_of_not_le hmeter)))] at hsucc
        cases hsucc
    · rw [activateBoost_refuse_eq now hidx hget (Or.inl halive)] at hsucc
      cases hsucc
  · intro now i s hget hb hex
    have hlt : i < st.snakes.length := by
      by_contra hge
      rw [List.get?_eq_none.2 (Nat.le_of_not_lt hge)] at hget
      cases hget
    exact checkBoost_fold_get now (List.range st.snakes.length)
      (List.nodup_range st.snakes.length) (List.mem_range.2 hlt) st hget hb hex
  · intro now now2 hsucc
    rcases hidx0 : st.snakes.findIdx? (fun t => t.id == pid) with _ | i
    · rw [activateBoost_none_eq now hidx0] at hsucc
      cases hsucc
    · rcases hget0 : st.snakes.get? i with _ | s
      · have : activateBoost pid now st = (st, false) := by
          simp only [activateBoost, hidx0, hget0]
        rw [this] at hsucc
        cases hsucc
      · by_cases halive : s.alive = true
        · by_cases hmeter : 100 ≤ s.boostMeter
          · by_cases hboost : s.isBoosting = true
            · rw [activateBoost_refuse_eq now hidx0 hget0 (Or.inr (Or.inr hboost))] at hsucc
              cases hsucc
            · have hb0 : s.isBoosting = false := by simpa using hboost
              have hact := activateBoost_success_eq now hidx0 hget0 halive hmeter hb0
              rw [hact]
              have hidx1 : ({ updSnakeAt i (boostSetUpd now) st with
                  events := (updSnakeAt i (boostSetUpd now) st).events ++
                    [GEvent.boostStart s.id] } : Eng).snakes.findIdx?
                    (fun t => t.id == pid) = some i := by
                show (listModify (boostSetUpd now) i st.snakes).findIdx?
                  (fun t => t.id == pid) = some i
                rw [@findIdx?_listModify Snake (fun t => t.id == pid) (boostSetUpd now)
                  (fun a => rfl) i st.snakes 0, hidx0]
              have hget1 : ({ updSnakeAt i (boostSetUpd now) st with
                  events := (updSnakeAt i (boostSetUpd now) st).events ++
                    [GEvent.boostStart s.id] } : Eng).snakes.get? i =
                  some (boostSetUpd now s) := by
                show (listModify (boostSetUpd now) i st.snakes).get? i = _
                rw [listModify_get?_self, hget0]
                rfl
              exact activateBoost_refuse_eq now2 hidx1 hget1 (Or.inr (Or.inr rfl))
          · rw [activateBoost_refuse_eq now hidx0 hget0
              (Or.inr (Or.inl (Nat.lt_of_not_le hmeter)))] at hsucc
            cases hsucc
        · rw [activateBoost_refuse_eq now hidx0 hget0 (Or.inl halive)] at hsucc
          cases hsucc

/-- Witness for C7: meter-bound preservation on a full-meter state, and a
boost expiry resetting the meter to 0 on a boosting state. -/
theorem c7_boost_meter_contract_witness :
    SnakeInv MeterOK w7State ∧
    (∀ dt now, SnakeInv MeterOK (update dt now w7State)) ∧
    (checkBoostStatus 1000 w7bState).snakes.get? 0 = some (boostClearUpd w7bSnake) := by
  have h0 : SnakeInv MeterOK w7State := by
    intro s hs
    simp only [w7State, mkEng, List.mem_singleton] at hs
    subst hs
    exact Nat.le_refl 100
  have h1 : SnakeInv MeterOK w7bState := by
    intro s hs
    simp only [w7bState, mkEng, List.mem_singleton] at hs
    subst hs
    exact Nat.le_refl 100
  refine ⟨h0, (c7_boost_meter_contract w7State h0 "a").2.2.2.1, ?_⟩
  exact (c7_boost_meter_contract w7bState h1 "a").2.2.2.2.2.2.2.2.1 1000 0 w7bSnake rfl rfl
    (by with_unfolding_all decide)

end SnakeGame

namespace SnakeGame

theorem emitEventAux_length : ∀ (ls : List Listener) (ev : GEvent),
    (emitEventAux ls ev).length = ls.length := by
  intro ls
  induction ls with
  | nil => intro ev; rfl
  | cons l rest ih =>
    intro ev
    unfold emitEventAux
    cases l ev <;> simp [ih]

theorem emitEventAux_get? : ∀ (ls : List Listener) (ev : GEvent) (j : ℕ) (l : Listener),
    ls.get? j = some l → (emitEventAux ls ev).get? j = some (l ev) := by
  intro ls
  induction ls with
  | nil => intro ev j l h; cases h
  | cons l0 rest ih =>
    intro ev j l h
    cases j with
    | zero =>
      injection h with h2
      subst h2
      unfold emitEventAux
      cases he : l0 ev <;> simp [he]
    | succ m =>
      unfold emitEventAux
      cases he : l0 ev <;> exact ih ev m l h

/-- C10: when an event is delivered to the listener list and some listener
throws (`Except.error`, modelling a thrown exception caught by the
`try/catch` in `emitEvent`), every remaining listener is still invoked with
its outcome recorded in order, and delivery returns normally - the result is
a total list of per-listener outcomes of the same length, with no error
propagating to the emitting tick. -/
theorem c10_listener_isolation (ls : List Listener) (ev : GEvent) (k : ℕ)
    (lk : Listener) (e : String) (hk : ls.get? k = some lk)
    (herr : lk ev = Except.error e) :
    (emitEventAux ls ev).length = ls.length ∧
    (∀ j (l : Listener), ls.get? j = some l →
      (emitEventAux ls ev).get? j = some (l ev)) := by
  exact ⟨emitEventAux_length ls ev, fun j l hj => emitEventAux_get? ls ev j l hj⟩

/-- Witness for C10: a throwing first listener does not prevent the second
listener from running; both outcomes are recorded. -/
theorem c10_listener_isolation_witness :
    (emitEventAux [failListener, okListener] (GEvent.boostStart "a")).length = 2 ∧
    (emitEventAux [failListener, okListener] (GEvent.boostStart "a")).get? 1 =
      some (okListener (GEvent.boostStart "a")) := by
  have h := c10_listener_isolation [failListener, okListener] (GEvent.boostStart "a")
    0 failListener "boom" rfl rfl
  exact ⟨h.1, h.2 1 okListener rfl⟩

end SnakeGame

namespace SnakeGame

/-- Fields untouched by everything inside one tick: map dimensions and the
tick accumulator/counter. -/
def Frame (a b : Eng) : Prop :=
  a.width = b.width ∧ a.height = b.height ∧ a.lastTick = b.lastTick ∧ a.ticks = b.ticks

theorem frame_refl (a : Eng) : Frame a a := ⟨rfl, rfl, rfl, rfl⟩

theorem frame_trans {a b c : Eng} (h1 : Frame a b) (h2 : Frame b c) : Frame a c :=
  ⟨h1.1.trans h2.1, h1.2.1.trans h2.2.1, h1.2.2.1.trans h2.2.2.1, h1.2.2.2.trans h2.2.2.2⟩

theorem foldl_frame {β : Type _} (g : Eng → β → Eng)
    (hg : ∀ st b, Frame (g st b) st) :
    ∀ (l : List β) (st : Eng), Frame (l.foldl g st) st := by
  intro l
  induction l with
  | nil => intro st; exact frame_refl st
  | cons b bs ih => intro st; exact frame_trans (ih (g st b)) (hg st b)

theorem spawnFoodAt_frame (p : Point) (v : ℕ) (st : Eng) :
    Frame (spawnFoodAt p v st) st := ⟨rfl, rfl, rfl, rfl⟩

theorem spawnFood_frame (st : Eng) : Frame (spawnFood st) st := ⟨rfl, rfl, rfl, rfl⟩

theorem dropStep_frame (s : Snake) (acc : Eng) (idx : ℕ) :
    Frame (dropStep s acc idx) acc := ⟨rfl, rfl, rfl, rfl⟩

theorem dropFood_frame (s : Snake) (st : Eng) : Frame (dropFoodFromSnake s st) st := by
  have h : ∀ (l : List ℕ) (st0 : Eng), Frame (l.foldl (dropStep s) st0) st0 :=
    foldl_frame (dropStep s) (dropStep_frame s)
  by_cases h0 : 0 < s.segments.length
  · simp only [dropFoodFromSnake, if_pos h0]
    exact frame_trans (spawnFoodAt_frame _ _ _) (h _ st)
  · simp only [dropFoodFromSnake, if_neg h0]
    exact h _ st

theorem updSnakeAt_frame (i : ℕ) (f : Snake → Snake) (st : Eng) :
    Frame (updSnakeAt i f st) st := ⟨rfl, rfl, rfl, rfl⟩

theorem frame_wrap (st0 st : Eng) (i : ℕ) (f : Snake → Snake) (es : List GEvent)
    (h : Frame st0 st) :
    Frame { updSnakeAt i f st0 with events := (updSnakeAt i f st0).events ++ es } st := by
  refine frame_trans ?_ h
  exact ⟨rfl, rfl, rfl, rfl⟩

theorem killSnake_frame (now : ℚ) (sid : String) (kid : Option String) (cause : String)
    (st : Eng) : Frame (killSnake now sid kid cause st) st := by
  unfold killSnake
  split
  · exact frame_refl st
  · split
    · exact frame_refl st
    · split
      · split <;> split <;>
          exact frame_wrap _ st _ deadUpd _ (dropFood_frame _ st)
      · exact frame_refl st

theorem handleFood_frame (i fi : ℕ) (st : Eng) :
    Frame (handleFoodCollision i fi st) st := by
  unfold handleFoodCollision
  split
  · exact frame_refl st
  · exact ⟨rfl, rfl, rfl, rfl⟩

theorem handleSpecial_frame (i fi : ℕ) (st : Eng) :
    Frame (handleSpecialFoodCollision i fi st) st := by
  unfold handleSpecialFoodCollision
  split
  · exact frame_refl st
  · split
    · exact frame_refl st
    · exact ⟨rfl, rfl, rfl, rfl⟩

theorem foodScanItem_frame (i : ℕ) (head : Point) (it : GItem) (st : Eng) :
    Frame (foodScanItem i head it st) st := by
  unfold foodScanItem
  split
  · exact frame_refl st
  · split
    · split
      · exact handleFood_frame _ _ _
      · exact frame_refl st
    · exact frame_refl st
  · split
    · split
      · exact handleSpecial_frame _ _ _
      · exact frame_refl st
    · exact frame_refl st

theorem foodPhase_frame (g : Grid) (i : ℕ) (head : Point) (st : Eng) :
    Frame (foodPhase g i head st) st := by
  unfold foodPhase
  refine foldl_frame _ ?_ _ _
  intro st0 off
  exact foldl_frame _ (fun st1 it => foodScanItem_frame i head it st1) _ _

theorem segsLoop_frame (now : ℚ) (i oIdx : ℕ) (head : Point) :
    ∀ (js : List ℕ) (st : Eng), Frame (segsLoop now i oIdx head js st).1 st := by
  intro js
  induction js with
  | nil => intro st; exact frame_refl st
  | cons j rest ih =>
    intro st
    unfold segsLoop
    split
    · split
      · split
        · split
          · exact frame_trans (ih _) (frame_wrap _ st _ _ _ (killSnake_frame _ _ _ _ _))
          · split
            · exact frame_wrap _ st _ _ _ (killSnake_frame _ _ _ _ _)
            · split
              · exact frame_wrap _ st _ _ _ (killSnake_frame _ _ _ _ _)
              · exact ih _
        · exact ih _
      · exact ih _
    · exact ih _

theorem othersLoop_frame (now : ℚ) (i : ℕ) (head : Point) :
    ∀ (os : List ℕ) (st : Eng), Frame (othersLoop now i head os st).1 st := by
  intro os
  induction os with
  | nil => intro st; exact frame_refl st
  | cons oIdx rest ih =>
    intro st
    unfold othersLoop
    split
    · exact ih _
    · split
      · rename_i o heqo
        split
        · rcases hseg : segsLoop now i oIdx head (List.range o.segments.length) st
            with ⟨st1, b⟩
          have h1 := segsLoop_frame now i oIdx head (List.range o.segments.length) st
          rw [hseg] at h1
          cases b
          · exact frame_trans (ih _) h1
          · exact h1
        · exact ih _
      · exact ih _

theorem selfLoop_frame (now : ℚ) (i : ℕ) (head : Point) :
    ∀ (js : List ℕ) (st : Eng), Frame (selfLoop now i head js st).1 st := by
  intro js
  induction js with
  | nil => intro st; exact frame_refl st
  | cons j rest ih =>
    intro st
    unfold selfLoop
    split
    · split
      · split
        · exact killSnake_frame _ _ _ _ _
        · exact ih _
      · exact ih _
    · exact ih _

theorem borderCheck_frame (now : ℚ) (s : Snake) (head : Point) (st : Eng) :
    Frame (borderCheck now s head st) st := by
  unfold borderCheck
  split
  · exact killSnake_frame _ _ _ _ _
  · exact frame_refl st

theorem afterSelf_frame (now : ℚ) (s : Snake) (head : Point) (r : Eng × Bool) :
    Frame (afterSelf now s head r) r.1 := by
  rcases r with ⟨st3, b⟩
  cases b
  · exact borderCheck_frame _ _ _ _
  · exact frame_refl st3

theorem afterOthers_frame (now : ℚ) (i : ℕ) (s : Snake) (head : Point) (r : Eng × Bool) :
    Frame (afterOthers now i s head r) r.1 := by
  rcases r with ⟨st2, b⟩
  cases b
  · unfold afterOthers
    dsimp only
    split
    · exact frame_trans (afterSelf_frame _ _ _ _) (selfLoop_frame _ _ _ _ _)
    · exact borderCheck_frame _ _ _ _
  · exact frame_refl st2

theorem collideSnakeStep_frame (now : ℚ) (g : Grid) (st : Eng) (i : ℕ) :
    Frame (collideSnakeStep now g st i) st := by
  unfold collideSnakeStep
  split
  · exact frame_refl st
  · split
    · exact frame_trans (frame_trans (afterOthers_frame _ _ _ _ _)
        (othersLoop_frame _ _ _ _ _)) (foodPhase_frame _ _ _ _)
    · exact frame_refl st

theorem checkCollisions_frame (now : ℚ) (st : Eng) :
    Frame (checkCollisions now st) st := by
  unfold checkCollisions
  exact foldl_frame _ (fun st0 i => collideSnakeStep_frame now _ st0 i) _ _

theorem moveSnakeStep_frame (st : Eng) (i : ℕ) : Frame (moveSnakeStep st i) st := by
  unfold moveSnakeStep
  split
  · exact frame_refl st
  · split
    · dsimp only
      split
      · exact frame_wrap _ st _ deadUpd _ (dropFood_frame _ st)
      · exact ⟨rfl, rfl, rfl, rfl⟩
    · exact frame_refl st

theorem updateSnakes_frame (st : Eng) : Frame (updateSnakes st) st := by
  unfold updateSnakes
  exact foldl_frame _ moveSnakeStep_frame _ _

theorem checkBoostStep_frame (now : ℚ) (st : Eng) (i : ℕ) :
    Frame (checkBoostStep now st i) st := by
  unfold checkBoostStep
  split
  · exact frame_refl st
  · split
    · exact ⟨rfl, rfl, rfl, rfl⟩
    · exact frame_refl st

theorem checkBoostStatus_frame (now : ℚ) (st : Eng) :
    Frame (checkBoostStatus now st) st := by
  unfold checkBoostStatus
  exact foldl_frame _ (checkBoostStep_frame now) _ _

theorem spawnPhase_frame (dt : ℚ) (st : Eng) : Frame (spawnPhase dt st) st := by
  unfold spawnPhase
  dsimp only
  split
  · split
    · exact frame_trans (spawnFood_frame _) ⟨rfl, rfl, rfl, rfl⟩
    · exact ⟨rfl, rfl, rfl, rfl⟩
  · exact ⟨rfl, rfl, rfl, rfl⟩

theorem updateLeaderboard_frame (st : Eng) : Frame (updateLeaderboard st) st :=
  ⟨rfl, rfl, rfl, rfl⟩

theorem tickBody_frame (dt now : ℚ) (st : Eng) : Frame (tickBody dt now st) st := by
  unfold tickBody
  exact frame_trans (updateLeaderboard_frame _)
    (frame_trans (spawnPhase_frame _ _)
      (frame_trans (checkCollisions_frame _ _)
        (frame_trans (updateSnakes_frame _) (checkBoostStatus_frame _ _))))

end SnakeGame

namespace SnakeGame

/-- C4 (amended): `update` performs tick work only once the accumulated time
reaches the tick interval; below the interval the call only adds `deltaTime`
to the accumulator (carried across calls); at or above the interval exactly
one tick runs and the accumulator is reset to 0, discarding any leftover
beyond the consumed tick. -/
theorem c4_amended (st : Eng) (dt now : ℚ) :
    (st.lastTick + dt < tickRate →
      update dt now st = { st with lastTick := st.lastTick + dt }) ∧
    (tickRate ≤ st.lastTick + dt →
      (update dt now st).lastTick = 0 ∧ (update dt now st).ticks = st.ticks + 1) := by
  constructor
  · intro h
    unfold update
    dsimp only
    split
    · rfl
    · rename_i hcon
      exact absurd h hcon
  · intro h
    unfold update
    dsimp only
    split
    · rename_i hlt
      exact absurd hlt (not_lt.2 h)
    · constructor
      · exact (tickBody_frame dt now _).2.2.1
      · exact (tickBody_frame dt now _).2.2.2

/-- Witness for C4: a 10 ms call accumulates without ticking; a 40 ms call
ticks exactly once and resets the accumulator. -/
theorem c4_amended_witness :
    (update 10 0 c4State = { c4State with lastTick := c4State.lastTick + 10 }) ∧
    ((update 40 0 c4State).lastTick = 0 ∧
      (update 40 0 c4State).ticks = c4State.ticks + 1) := by
  refine ⟨(c4_amended c4State 10 0).1 ?_, (c4_amended c4State 40 0).2 ?_⟩
  · with_unfolding_all decide
  · with_unfolding_all decide

theorem mem_insertDesc (key : α → ℕ) (x y : α) :
    ∀ l : List α, y ∈ insertDesc key x l → y = x ∨ y ∈ l := by
  intro l
  induction l with
  | nil =>
    intro h
    rcases List.mem_singleton.1 h with rfl
    exact Or.inl rfl
  | cons z zs ih =>
    intro h
    unfold insertDesc at h
    split at h
    · rcases List.mem_cons.1 h with h1 | h1
      · exact Or.inr (h1 ▸ List.mem_cons_self z zs)
      · rcases ih h1 with h2 | h2
        · exact Or.inl h2
        · exact Or.inr (List.mem_cons_of_mem z h2)
    · rcases List.mem_cons.1 h with h1 | h1
      · exact Or.inl h1
      · exact Or.inr h1

theorem sorted_insertDesc (key : α → ℕ) (x : α) :
    ∀ l : List α, List.Pairwise (fun a b => key b ≤ key a) l →
      List.Pairwise (fun a b => key b ≤ key a) (insertDesc key x l) := by
  intro l
  induction l with
  | nil => intro _; exact List.pairwise_singleton _ x
  | cons y ys ih =>
    intro h
    rcases List.pairwise_cons.1 h with ⟨hy, hys⟩
    unfold insertDesc
    split
    · rename_i hlt
      refine List.pairwise_cons.2 ⟨?_, ih hys⟩
      intro z hz
      rcases mem_insertDesc key x z ys hz with rfl | h2
      · exact Nat.le_of_lt hlt
      · exact hy z h2
    · rename_i hge
      refine List.pairwise_cons.2 ⟨?_, h⟩
      intro z hz
      rcases List.mem_cons.1 hz with rfl | h2
      · exact Nat.le_of_not_lt hge
      · exact le_trans (hy z h2) (Nat.le_of_not_lt hge)

theorem sorted_sortDesc (key : α → ℕ) :
    ∀ l : List α, List.Pairwise (fun a b => key b ≤ key a) (sortDesc key l) := by
  intro l
  induction l with
  | nil => exact List.Pairwise.nil
  | cons x xs ih => exact sorted_insertDesc key x (sortDesc key xs) ih

theorem filter_insertDesc_pos (key : α → ℕ) (q : ℕ) (x : α) (hx : key x = q) :
    ∀ l : List α, (insertDesc key x l).filter (fun a => key a == q) =
      x :: l.filter (fun a => key a == q) := by
  intro l
  induction l with
  | nil => simp [insertDesc, List.filter, hx]
  | cons y ys ih =>
    unfold insertDesc
    split
    · rename_i hlt
      have hy : (key y == q) = false := by
        rw [hx] at hlt
        simp [Nat.ne_of_gt hlt]
      simp only [List.filter_cons, hy, ih]
      simp
    · simp [List.filter_cons, hx]

theorem filter_insertDesc_neg (key : α → ℕ) (q : ℕ) (x : α) (hx : key x ≠ q) :
    ∀ l : List α, (insertDesc key x l).filter (fun a => key a == q) =
      l.filter (fun a => key a == q) := by
  intro l
  have hxb : (key x == q) = false := by simp [hx]
  induction l with
  | nil => simp [insertDesc, List.filter, hxb]
  | cons y ys ih =>
    unfold insertDesc
    split
    · simp only [List.filter_cons, ih]
    · simp [List.filter_cons, hxb]

theorem filter_sortDesc (key : α → ℕ) (q : ℕ) :
    ∀ l : List α, (sortDesc key l).filter (fun a => key a == q) =
      l.filter (fun a => key a == q) := by
  intro l
  induction l with
  | nil => rfl
  | cons x xs ih =>
    show (insertDesc key x (sortDesc key xs)).filter (fun a => key a == q) = _
    by_cases hx : key x = q
    · rw [filter_insertDesc_pos key q x hx, ih]
      simp [List.filter_cons, hx]
    · rw [filter_insertDesc_neg key q x hx, ih]
      have hxb : (key x == q) = false := by simp [hx]
      simp [List.filter_cons, hxb]

end SnakeGame

namespace SnakeGame

/-- C2 (amended): after every ticking `update` and after every
`removePlayer`, the leaderboard equals ALL snakes in the state (the source
does not filter dead snakes out) projected to `{id, name, score}`, stably
sorted by score descending, truncated to 10; the sort is descending-sorted,
at most 10 long, and stable on ties (elements of any fixed score keep their
input order: filtering the sorted list by a score equals filtering the
input). -/
theorem c2_amended (st : Eng) (dt now : ℚ) (pid : String)
    (hTick : tickRate ≤ st.lastTick + dt) :
    ((update dt now st).leaderboard = leaderboardOf (update dt now st).snakes) ∧
    ((removePlayer pid st).leaderboard = leaderboardOf (removePlayer pid st).snakes) ∧
    (∀ l : List Snake,
      List.Pairwise (fun a b : LBEntry => b.score ≤ a.score) (leaderboardOf l) ∧
      (leaderboardOf l).length ≤ 10) ∧
    (∀ (l : List Snake) (q : ℕ),
      (sortDesc LBEntry.score (l.map lbProj)).filter (fun e => e.score == q) =
        (l.map lbProj).filter (fun e => e.score == q)) := by
  refine ⟨?_, ?_, ?_, ?_⟩
  · unfold update
    dsimp only
    split
    · rename_i hlt
      exact absurd hlt (not_lt.2 hTick)
    · rfl
  · rfl
  · intro l
    constructor
    · exact List.Pairwise.sublist (List.take_sublist _ _)
        (sorted_sortDesc LBEntry.score (l.map lbProj))
    · simp only [leaderboardOf, List.length_take]
      exact min_le_left _ _
  · intro l q
    exact filter_sortDesc LBEntry.score q (l.map lbProj)

/-- Witness for C2 at the concrete one-snake state. -/
theorem c2_amended_witness :
    tickRate ≤ c2State.lastTick + 17 ∧
    ((update 17 0 c2State).leaderboard = leaderboardOf (update 17 0 c2State).snakes) ∧
    ((removePlayer "zz" c2State).leaderboard =
      leaderboardOf (removePlayer "zz" c2State).snakes) := by
  have h : tickRate ≤ c2State.lastTick + 17 := by with_unfolding_all decide
  exact ⟨h, (c2_amended c2State 17 0 "zz" h).1, (c2_amended c2State 17 0 "zz" h).2.1⟩

/-- C5 (amended): `handlePlayerInput` is a total function of the state; it
leaves the state unchanged when the input id does not identify a snake, or
identifies a dead one; and a zero-vector direction is NOT a no-op: the
handler runs, setting the snake's base speed to the minimum 2 (speed 4 when
boosting) and its direction to the zero vector. -/
theorem c5_amended (st : Eng) (inp : PlayerInput) :
    (st.snakes.findIdx? (fun s => s.id == inp.id) = none →
      handlePlayerInput inp st = st) ∧
    (∀ i s, st.snakes.findIdx? (fun s => s.id == inp.id) = some i →
      st.snakes.get? i = some s → s.alive = false → handlePlayerInput inp st = st) ∧
    (∀ i s, st.snakes.findIdx? (fun s => s.id == inp.id) = some i →
      st.snakes.get? i = some s → s.alive = true → inp.direction = ⟨0, 0⟩ →
      st.sqrtFn 0 = 0 →
      handlePlayerInput inp st = updSnakeAt i (inputUpd 2 ⟨0, 0⟩) st) := by
  refine ⟨?_, ?_, ?_⟩
  · intro h
    simp [handlePlayerInput, h]
  · intro i s hidx hget hdead
    simp only [handlePlayerInput, hidx, hget]
    simp [hdead]
  · intro i s hidx hget halive hdir hz
    simp only [handlePlayerInput, hidx, hget, halive, if_true]
    rw [hdir]
    have h0 : ((0 : ℚ) * 0 + 0 * 0) = 0 := by norm_num
    have hn : normalizeVector st.sqrtFn ⟨0, 0⟩ = (⟨0, 0⟩ : Point) := by
      simp only [normalizeVector, h0, hz, if_pos]
    have hb : (2 : ℚ) + min 1 (st.sqrtFn ((0 : ℚ) * 0 + 0 * 0) / 100) * 2 = 2 := by
      rw [h0, hz]
      norm_num
    rw [show ((⟨0, 0⟩ : Point).x * (⟨0, 0⟩ : Point).x +
        (⟨0, 0⟩ : Point).y * (⟨0, 0⟩ : Point).y) = (0 : ℚ) * 0 + 0 * 0 from rfl]
    rw [hn, hb]

/-- Witness for C5: an unknown id is a no-op; the zero-vector input on the
alive snake applies the minimum base speed and zero direction. -/
theorem c5_amended_witness :
    (handlePlayerInput ⟨"zz", ⟨1, 0⟩⟩ c5State = c5State) ∧
    (handlePlayerInput c5Input c5State =
      updSnakeAt 0 (inputUpd 2 ⟨0, 0⟩) c5State) := by
  constructor
  · exact (c5_amended c5State ⟨"zz", ⟨1, 0⟩⟩).1 (by with_unfolding_all decide)
  · exact (c5_amended c5State c5Input).2.2 0 (mkSnake "a" "Ann" [⟨500, 500⟩] 0 ⟨1, 0⟩)
      (by with_unfolding_all decide) rfl rfl rfl rfl

end SnakeGame

namespace SnakeGame

theorem dropFood_events (s : Snake) (st : Eng) :
    (dropFoodFromSnake s st).events = st.events := by
  have h : ∀ (l : List ℕ) (st0 : Eng), st0.events = st.events →
      (l.foldl (dropStep s) st0).events = st.events :=
    fun l st0 h0 => foldl_eng_inv (fun x => x.events = st.events) (dropStep s)
      (fun a b hh => hh) l st0 h0
  by_cases h0 : 0 < s.segments.length
  · simp only [dropFoodFromSnake, if_pos h0]
    exact h _ _ rfl
  · simp only [dropFoodFromSnake, if_neg h0]
    exact h _ _ rfl

theorem spawnFoodAt_foods_len (p : Point) (v : ℕ) (st : Eng) :
    (spawnFoodAt p v st).foods.length = st.foods.length + 1 := by
  show (st.foods ++ [_]).length = st.foods.length + 1
  simp

theorem dropStep_foods_len (s : Snake) (acc : Eng) (idx : ℕ) :
    (dropStep s acc idx).foods.length = acc.foods.length + 1 :=
  spawnFoodAt_foods_len _ _ _

theorem foldl_dropStep_foods_le (s : Snake) :
    ∀ (l : List ℕ) (st0 : Eng),
      st0.foods.length ≤ (l.foldl (dropStep s) st0).foods.length := by
  intro l
  induction l with
  | nil => intro st0; exact Nat.le_refl _
  | cons j rest ih =>
    intro st0
    calc st0.foods.length ≤ (dropStep s st0 j).foods.length := by
          rw [dropStep_foods_len]; exact Nat.le_succ _
      _ ≤ _ := ih (dropStep s st0 j)

theorem dropFood_foods_le (s : Snake) (st : Eng) :
    st.foods.length ≤ (dropFoodFromSnake s st).foods.length := by
  by_cases h0 : 0 < s.segments.length
  · simp only [dropFoodFromSnake, if_pos h0]
    rw [spawnFoodAt_foods_len]
    exact Nat.le_succ_of_le (foldl_dropStep_foods_le s _ st)
  · simp only [dropFoodFromSnake, if_neg h0]
    exact foldl_dropStep_foods_le s _ st

theorem dropFood_foods_succ (s : Snake) (st : Eng) (hne : s.segments ≠ []) :
    st.foods.length + 1 ≤ (dropFoodFromSnake s st).foods.length := by
  have h0 : 0 < s.segments.length := List.length_pos.2 hne
  simp only [dropFoodFromSnake, if_pos h0]
  rw [spawnFoodAt_foods_len]
  exact Nat.succ_le_succ (foldl_dropStep_foods_le s _ st)

theorem moveSnakeStep_get_ne {st : Eng} {i j : ℕ} (hne : i ≠ j) :
    (moveSnakeStep st j).snakes.get? i = st.snakes.get? i := by
  unfold moveSnakeStep
  split
  · rfl
  · split
    · dsimp only
      split
      · show (listModify deadUpd j (dropFoodFromSnake _ st).snakes).get? i = _
        rw [dropFood_snakes, listModify_get?_ne deadUpd j i st.snakes hne]
      · exact listModify_get?_ne _ j i st.snakes hne
    · rfl

theorem moveSnakeStep_events_mem {st : Eng} {e : GEvent} (j : ℕ) (he : e ∈ st.events) :
    e ∈ (moveSnakeStep st j).events := by
  unfold moveSnakeStep
  split
  · exact he
  · split
    · dsimp only
      split
      · show e ∈ (updSnakeAt j deadUpd (dropFoodFromSnake _ st)).events ++ [_]
        refine List.mem_append_left _ ?_
        show e ∈ (dropFoodFromSnake _ st).events
        rw [dropFood_events]
        exact he
      · exact he
    · exact he

theorem moveSnakeStep_foods_le {st : Eng} (j : ℕ) :
    st.foods.length ≤ (moveSnakeStep st j).foods.length := by
  unfold moveSnakeStep
  split
  · exact Nat.le_refl _
  · split
    · dsimp only
      split
      · show st.foods.length ≤ (updSnakeAt j deadUpd (dropFoodFromSnake _ st)).foods.length
        exact dropFood_foods_le _ st
      · exact Nat.le_refl _
    · exact Nat.le_refl _

theorem foldl_moveSnakeStep_get_not_mem {i : ℕ} :
    ∀ (l : List ℕ), i ∉ l → ∀ st : Eng,
      ((l.foldl moveSnakeStep st).snakes.get? i) = st.snakes.get? i := by
  intro l
  induction l with
  | nil => intro _ st; rfl
  | cons j rest ih =>
    intro hmem st
    have hne : i ≠ j := fun h => hmem (h ▸ List.mem_cons_self j rest)
    rw [List.foldl_cons, ih (fun h => hmem (List.mem_cons_of_mem j h)) _,
      moveSnakeStep_get_ne hne]

theorem foldl_moveSnakeStep_events_mem {e : GEvent} :
    ∀ (l : List ℕ) (st : Eng), e ∈ st.events → e ∈ (l.foldl moveSnakeStep st).events := by
  intro l
  induction l with
  | nil => intro st h; exact h
  | cons j rest ih =>
    intro st h
    exact ih _ (moveSnakeStep_events_mem j h)

theorem foldl_moveSnakeStep_foods_le :
    ∀ (l : List ℕ) (st : Eng), st.foods.length ≤ (l.foldl moveSnakeStep st).foods.length := by
  intro l
  induction l with
  | nil => intro st; exact Nat.le_refl _
  | cons j rest ih =>
    intro st
    exact Nat.le_trans (moveSnakeStep_foods_le j) (ih (moveSnakeStep st j))

theorem moveSnakeStep_danger_self {st : Eng} {i : ℕ} {s : Snake}
    (hget : st.snakes.get? i = some s) (halive : s.alive = true)
    (hdanger : inDangerZone (newHeadOf s) st.width st.height = true) :
    (moveSnakeStep st i).snakes.get? i = some (deadUpd s) ∧
    (moveSnakeStep st i).events = st.events ++ [GEvent.borderDeath s.id] ∧
    (s.segments ≠ [] →
      st.foods.length + 1 ≤ (moveSnakeStep st i).foods.length) := by
  unfold moveSnakeStep
  split
  · rename_i heq
    rw [heq] at hget
    cases hget
  · rename_i s2 heq
    rw [heq] at hget
    injection hget with h2
    subst h2
    rw [if_pos halive]
    dsimp only
    rw [if_pos hdanger]
    refine ⟨?_, ?_, ?_⟩
    · show (listModify deadUpd i (dropFoodFromSnake s2 st).snakes).get? i = some (deadUpd s2)
      rw [dropFood_snakes, listModify_get?_self, heq]
      rfl
    · show (dropFoodFromSnake s2 st).events ++ [GEvent.borderDeath s2.id] = _
      rw [dropFood_events]
    · intro hne
      show st.foods.length + 1 ≤ (dropFoodFromSnake s2 st).foods.length
      exact dropFood_foods_succ s2 st hne

theorem updateSnakes_danger_aux {i : ℕ} {s : Snake} :
    ∀ (l : List ℕ), l.Nodup → i ∈ l → ∀ st : Eng,
      st.snakes.get? i = some s → s.alive = true →
      inDangerZone (newHeadOf s) st.width st.height = true →
      ((l.foldl moveSnakeStep st).snakes.get? i = some (deadUpd s) ∧
       GEvent.borderDeath s.id ∈ (l.foldl moveSnakeStep st).events ∧
       (s.segments ≠ [] →
         st.foods.length + 1 ≤ (l.foldl moveSnakeStep st).foods.length)) := by
  intro l
  induction l with
  | nil => intro _ hmem; cases hmem
  | cons j rest ih =>
    intro hnd hmem st hget halive hdanger
    rcases List.nodup_cons.1 hnd with ⟨hjn, hnd2⟩
    by_cases hji : j = i
    · subst hji
      rcases moveSnakeStep_danger_self hget halive hdanger with ⟨h1, h2, h3⟩
      rw [List.foldl_cons]
      refine ⟨?_, ?_, ?_⟩
      · rw [foldl_moveSnakeStep_get_not_mem rest hjn _, h1]
      · refine foldl_moveSnakeStep_events_mem rest _ ?_
        rw [h2]
        exact List.mem_append_right _ (List.mem_singleton.2 rfl)
      · intro hne
        exact Nat.le_trans (Nat.le_trans (h3 hne)
          (Nat.le_refl _)) (foldl_moveSnakeStep_foods_le rest _)
    · have hne : i ≠ j := fun h => hji h.symm
      have hget2 : (moveSnakeStep st j).snakes.get? i = some s := by
        rw [moveSnakeStep_get_ne hne]
        exact hget
      have hfr := moveSnakeStep_frame st j
      have hdanger2 : inDangerZone (newHeadOf s) (moveSnakeStep st j).width
          (moveSnakeStep st j).height = true := by
        rw [hfr.1, hfr.2.1]
        exact hdanger
      have hmem2 : i ∈ rest := by
        rcases List.mem_cons.1 hmem with h | h
        · exact absurd h.symm hji
        · exact h
      rw [List.foldl_cons]
      rcases ih hnd2 hmem2 (moveSnakeStep st j) hget2 halive hdanger2 with ⟨h1, h2, h3⟩
      refine ⟨h1, h2, ?_⟩
      intro hsegs
      exact Nat.le_trans (Nat.add_le_add_right (moveSnakeStep_foods_le j) 1) (h3 hsegs)

/-- C6 (amended): an alive snake whose new head falls within the 30-unit
border danger margin is marked dead by `updateSnakes` in the same tick, its
segments are not advanced, food is dropped from its body, and a
`playerDeathBorder` event carrying the snake's id is emitted - the event
payload contains no score field. -/
theorem c6_amended (st : Eng) (i : ℕ) (s : Snake)
    (hget : st.snakes.get? i = some s) (halive : s.alive = true)
    (hdanger : inDangerZone (newHeadOf s) st.width st.height = true) :
    ((updateSnakes st).snakes.get? i).map (fun t => t.alive) = some false ∧
    ((updateSnakes st).snakes.get? i).map (fun t => t.segments) = some s.segments ∧
    GEvent.borderDeath s.id ∈ (updateSnakes st).events ∧
    GEvent.etype (GEvent.borderDeath s.id) = GameEventType.playerDeathBorder ∧
    GEvent.scoreOf (GEvent.borderDeath s.id) = none ∧
    (s.segments ≠ [] → st.foods.length + 1 ≤ (updateSnakes st).foods.length) := by
  have hlt : i < st.snakes.length := by
    by_contra hge
    rw [List.get?_eq_none.2 (Nat.le_of_not_lt hge)] at hget
    cases hget
  have h := updateSnakes_danger_aux (List.range st.snakes.length)
    (List.nodup_range st.snakes.length) (List.mem_range.2 hlt) st hget halive hdanger
  refine ⟨?_, ?_, h.2.1, rfl, rfl, h.2.2⟩
  · rw [show (updateSnakes st).snakes = ((List.range st.snakes.length).foldl
      moveSnakeStep st).snakes from rfl, h.1]
    rfl
  · rw [show (updateSnakes st).snakes = ((List.range st.snakes.length).foldl
      moveSnakeStep st).snakes from rfl, h.1]
    rfl

/-- Witness for C6 at the concrete border-bound snake. -/
theorem c6_amended_witness :
    ((updateSnakes c6State).snakes.get? 0).map (fun t => t.alive) = some false ∧
    ((updateSnakes c6State).snakes.get? 0).map (fun t => t.segments) =
      some c6Snake.segments ∧
    GEvent.borderDeath c6Snake.id ∈ (updateSnakes c6State).events ∧
    GEvent.scoreOf (GEvent.borderDeath c6Snake.id) = none ∧
    (c6State.foods.length + 1 ≤ (updateSnakes c6State).foods.length) := by
  have h := c6_amended c6State 0 c6Snake rfl rfl (by with_unfolding_all decide)
  exact ⟨h.1, h.2.1, h.2.2.1, h.2.2.2.2.1, h.2.2.2.2.2 (by with_unfolding_all decide)⟩

end SnakeGame
